import Mathlib

/-!
Verification development for the SketchEngineClient OpenAPI client generator
(`client_generator.py`).  The Python source is shallowly embedded:

* Python strings are `String` / `List Char`; regular-expression based
  transformations are embedded character by character.
* The parsed YAML/JSON document is the inductive `Node` type; Python `dict`s
  become insertion-ordered association lists (Python 3.7+ dicts preserve
  insertion order, which the association-list model captures exactly).
  Mapping keys are restricted to strings, which is the only key shape the
  generator ever consumes; YAML floats are not modelled (no claim needs them).
* Fallible Python code (uncaught exceptions: `KeyError`, `ValueError`,
  `AttributeError`, `TypeError`, ...) is embedded in `Except String`.
* The run-time behaviour of the *generated* callables is embedded as an
  executable semantic function (`runGeneratedCall`) that mirrors, statement
  for statement, the code emitted by `build_function_code`.
-/

/-! ### Character helpers (ASCII classes used by the Python regexes) -/

/-- The regex class `[0-9]` (ASCII digits). -/
def isAsciiDigit (c : Char) : Bool := '0' ≤ c && c ≤ '9'

/-- The regex class `[0-9a-zA-Z_]` from `sanitize_param_name`. -/
def isIdentChar (c : Char) : Bool :=
  isAsciiDigit c || ('a' ≤ c && c ≤ 'z') || ('A' ≤ c && c ≤ 'Z') || c == '_'

/-- The regex class `[0-9a-zA-Z]` from `snake_case`. -/
def isAlnumChar (c : Char) : Bool :=
  isAsciiDigit c || ('a' ≤ c && c ≤ 'z') || ('A' ≤ c && c ≤ 'Z')

/-- `re.match('^[0-9]', s)`: does the string start with a digit? -/
def startsWithDigit : List Char → Bool
  | [] => false
  | c :: _ => isAsciiDigit c

/-- Python `str.lower()` (ASCII fragment, which is all the generator feeds it). -/
def lowerStr (s : String) : String := String.mk (s.data.map Char.toLower)

/-- Python `str.upper()` (ASCII fragment). -/
def upperStr (s : String) : String := String.mk (s.data.map Char.toUpper)

/-- Python `str.rstrip('/')`. -/
def rstripSlash (s : String) : String :=
  String.mk ((s.data.reverse.dropWhile (· == '/')).reverse)

/-- The opening-brace character (written numerically). -/
def lbrace : Char := Char.ofNat 123

/-- The closing-brace character (written numerically). -/
def rbrace : Char := Char.ofNat 125

/-- One-character string holding an opening brace. -/
def lbraceS : String := String.mk [lbrace]

/-- One-character string holding a closing brace. -/
def rbraceS : String := String.mk [rbrace]

/-- Python `pat in s` for strings (contiguous substring test). -/
def subOccurs : List Char → List Char → Bool
  | [], pat => pat.isEmpty
  | l@(_ :: rest), pat => pat.isPrefixOf l || subOccurs rest pat

/-- Python `pat in s` on `String`s. -/
def containsSub (s pat : String) : Bool := subOccurs s.data pat.data

/-- Python `s.startswith(pre)`. -/
def strStartsWith (s pre : String) : Bool := pre.data.isPrefixOf s.data

/-- Python `s.split(sep)` for a one-character separator: `"".split` is
`[""]`, and a leading/trailing/double separator yields empty pieces. -/
def splitOnChar (sep : Char) (cs : List Char) : List String :=
  match cs with
  | [] => [""]
  | c :: rest =>
    let r := splitOnChar sep rest
    if c == sep then "" :: r
    else
      match r with
      | [] => [String.mk [c]]
      | s :: tail => String.mk (c :: s.data) :: tail

/-- Python `s.replace(pat, rep)`: left-to-right, non-overlapping.  The fuel
argument (instantiated with the text length, which each step strictly
consumes) keeps the recursion structural.  (For the empty pattern — which
the generator never passes — this returns the text unchanged.) -/
def replaceGo (pat rep : List Char) : Nat → List Char → List Char
  | 0, _ => []
  | _ + 1, [] => []
  | fuel + 1, c :: rest =>
    if pat.isPrefixOf (c :: rest) && !pat.isEmpty then
      rep ++ replaceGo pat rep fuel (rest.drop (pat.length - 1))
    else c :: replaceGo pat rep fuel rest

/-- Python `s.replace(pat, rep)` on character lists. -/
def replaceSub (cs pat rep : List Char) : List Char :=
  replaceGo pat rep cs.length cs

/-! ### `sanitize_param_name` (client_generator.py lines 11-31)

The Python function is a pipeline of four steps; each step is one definition
so that it can be matched line by line against the source. -/

/-- `param_name.replace('[', '_')`. -/
def replaceOpenBracket (cs : List Char) : List Char :=
  cs.map (fun c => if c == '[' then '_' else c)

/-- `.replace(']', '')` (single-character pattern, i.e. deletion). -/
def dropCloseBracket (cs : List Char) : List Char :=
  cs.filter (fun c => c != ']')

/-- `if re.match(r'^[0-9]', new_name): new_name = f"p_{new_name}"`. -/
def digitGuard (cs : List Char) : List Char :=
  if startsWithDigit cs then 'p' :: '_' :: cs else cs

/-- `re.sub(r'[^0-9a-zA-Z_]', '_', new_name)`. -/
def underscoreNonIdent (cs : List Char) : List Char :=
  cs.map (fun c => if isIdentChar c then c else '_')

/-- The `python_keywords` set from the source (lines 23-28). -/
def pythonKeywords : List String :=
  ["class", "def", "return", "lambda", "for", "while", "break", "continue",
   "pass", "import", "global", "with", "yield", "except", "raise", "from",
   "as", "if", "elif", "else", "try", "finally", "nonlocal", "assert",
   "del", "in", "and", "or", "not", "is", "None", "True", "False"]

/-- `if new_name in python_keywords: new_name += '_param'`. -/
def keywordGuard (cs : List Char) : List Char :=
  if String.mk cs ∈ pythonKeywords then cs ++ ('_' :: 'p' :: 'a' :: 'r' :: 'a' :: 'm' :: []) else cs

/-- `sanitize_param_name` on character lists: the four steps in source order. -/
def sanitizeChars (cs : List Char) : List Char :=
  keywordGuard (underscoreNonIdent (digitGuard (dropCloseBracket (replaceOpenBracket cs))))

/-- `sanitize_param_name` (client_generator.py lines 11-31). -/
def sanitize_param_name (s : String) : String := String.mk (sanitizeChars s.data)

/-! ### `snake_case` (lines 7-9): `re.sub(r'[^0-9a-zA-Z]+', '_', text).strip('_').lower()` -/

/-- `re.sub(r'[^0-9a-zA-Z]+', '_', text)`: each maximal run of non-alphanumeric
characters becomes a single underscore (`inRun` tracks whether the current
character continues such a run). -/
def snakeGo (inRun : Bool) : List Char → List Char
  | [] => []
  | c :: rest =>
    if isAlnumChar c then c :: snakeGo false rest
    else if inRun then snakeGo true rest
    else '_' :: snakeGo true rest

/-- The substitution step of `snake_case`. -/
def snakeSub (cs : List Char) : List Char := snakeGo false cs

/-- Python `str.strip('_')`. -/
def stripUnderscores (cs : List Char) : List Char :=
  ((cs.dropWhile (· == '_')).reverse.dropWhile (· == '_')).reverse

/-- `snake_case` (client_generator.py lines 7-9). -/
def snake_case (s : String) : String :=
  lowerStr (String.mk (stripUnderscores (snakeSub s.data)))

/-- `generate_function_name` (lines 47-48). -/
def generate_function_name (method path : String) : String :=
  lowerStr method ++ "_" ++ snake_case path

/-! ### The document model -/

/-- A parsed YAML/JSON node, the shape `yaml.safe_load` hands the generator.
Mappings are insertion-ordered association lists with string keys (the only
key shape the generator consumes); floats are not modelled. -/
inductive Node where
  | null : Node
  | bool (b : Bool) : Node
  | int (i : Int) : Node
  | str (s : String) : Node
  | list (l : List Node) : Node
  | map (kvs : List (String × Node)) : Node

/-- First-match association lookup (Python `dict` access by key). -/
def alookupN (k : String) : List (String × Node) → Option Node
  | [] => none
  | (k', v) :: rest => if k' == k then some v else alookupN k rest

/-- `d.get(k)` on a node known to be a mapping; `none` when it is not one. -/
def nodeGet (n : Node) (k : String) : Option Node :=
  match n with
  | .map kvs => alookupN k kvs
  | _ => none

/-- Python truthiness of a document node (`bool(x)` / `if x:`). -/
def truthy : Node → Bool
  | .null => false
  | .bool b => b
  | .int i => i != 0
  | .str s => s != ""
  | .list l => !l.isEmpty
  | .map kvs => !kvs.isEmpty

/-- `n == 'lit'` in Python: only a string node can equal a string literal. -/
def nodeEqStr (n : Node) (lit : String) : Bool :=
  match n with
  | .str s => s == lit
  | _ => false

/-- Python `name in lst` where `name` is a `str` and `lst` a list of parsed
YAML values: true exactly when the list holds an equal string. -/
def pyInStrList (s : String) (l : List Node) : Bool :=
  l.any (fun n => match n with | .str t => s == t | _ => false)

mutual

/-- Python `repr` of a parsed node (used only inside `str` of containers). -/
def pyRepr : Node → String
  | .null => "None"
  | .bool true => "True"
  | .bool false => "False"
  | .int i => toString i
  | .str s => "'" ++ s ++ "'"
  | .list l => "[" ++ pyReprList l ++ "]"
  | .map kvs => lbraceS ++ pyReprPairs kvs ++ rbraceS

/-- Comma-joined `repr`s of list elements. -/
def pyReprList : List Node → String
  | [] => ""
  | [x] => pyRepr x
  | x :: rest => pyRepr x ++ ", " ++ pyReprList rest

/-- Comma-joined `repr`s of mapping entries. -/
def pyReprPairs : List (String × Node) → String
  | [] => ""
  | [(k, v)] => "'" ++ k ++ "': " ++ pyRepr v
  | (k, v) :: rest => "'" ++ k ++ "': " ++ pyRepr v ++ ", " ++ pyReprPairs rest

end

/-- Python `str(x)` of a parsed node (as an f-string renders it). -/
def pyStr : Node → String
  | .str s => s
  | n => pyRepr n

/-! ### `resolve_ref` (client_generator.py lines 33-45) -/

/-- The pointer walk `for part in path_parts: node = node[part]`; a missing
key or a non-mapping node raises (KeyError / TypeError). -/
def walkPath : List String → Node → Except String Node
  | [], node => .ok node
  | part :: rest, node =>
    match nodeGet node part with
    | some child => walkPath rest child
    | none => .error ("KeyError: " ++ part)

/-- `resolve_ref(ref_obj, root_spec)` (lines 33-45). -/
def resolve_ref (ref_obj root_spec : Node) : Except String Node :=
  match ref_obj with
  | .map kvs =>
    match alookupN "$ref" kvs with
    | none => .ok ref_obj
    | some (.str ref_path) =>
      if strStartsWith ref_path "#/" then
        walkPath (splitOnChar '/' (ref_path.data.drop 2)) root_spec
      else
        .error ("Unsupported $ref format: " ++ ref_path)
    | some _ => .error "AttributeError: $ref value has no startswith"
  | _ => .ok ref_obj

/-! ### Mapping access helpers mirroring Python attribute/key errors -/

/-- `n.get(k, dflt)`: raises `AttributeError` when `n` is not a mapping. -/
def pyGetD (n : Node) (k : String) (dflt : Node) : Except String Node :=
  match n with
  | .map kvs => .ok ((alookupN k kvs).getD dflt)
  | _ => .error "AttributeError: get"

/-- A hashable Python scalar, the only node shapes usable inside a dict key. -/
inductive Scalar where
  | null : Scalar
  | bool (b : Bool) : Scalar
  | int (i : Int) : Scalar
  | str (s : String) : Scalar
deriving DecidableEq

/-- View of a node as a hashable scalar (`none` = unhashable, `TypeError`). -/
def toScalar : Node → Option Scalar
  | .null => some .null
  | .bool b => some (.bool b)
  | .int i => some (.int i)
  | .str s => some (.str s)
  | .list _ => none
  | .map _ => none

/-- `prop_name in container` for a string against an arbitrary parsed value. -/
def pyInNode (s : String) (container : Node) : Except String Bool :=
  match container with
  | .list l => .ok (pyInStrList s l)
  | .str t => .ok (containsSub t s)
  | .map kvs => .ok ((alookupN s kvs).isSome)
  | _ => .error "TypeError: argument is not iterable"

/-! ### Parameter merging (client_generator.py lines 351-363)

`all_params_dict` is a Python dict keyed by `(p_in, p_name)`; writing an
existing key replaces the value in place (insertion order preserved), which
`upsertK` models exactly. -/

/-- `all_params_dict[key] = p` on an insertion-ordered association list. -/
def upsertK (acc : List ((Scalar × Scalar) × Node)) (k : Scalar × Scalar) (p : Node) :
    List ((Scalar × Scalar) × Node) :=
  if acc.any (fun kv => kv.1 == k) then
    acc.map (fun kv => if kv.1 == k then (k, p) else kv)
  else
    acc ++ [(k, p)]

/-- One iteration of the merge loop (lines 354-361): resolve, skip entries
with falsy `in`/`name`, insert into the dict keyed by `(in, name)`. -/
def mergeStep (root : Node) (acc : List ((Scalar × Scalar) × Node)) (p0 : Node) :
    Except String (List ((Scalar × Scalar) × Node)) := do
  let p ← resolve_ref p0 root
  let p_in ← pyGetD p "in" .null
  let p_name ← pyGetD p "name" .null
  if !truthy p_in || !truthy p_name then
    pure acc
  else
    match toScalar p_in, toScalar p_name with
    | some ki, some kn => pure (upsertK acc (ki, kn) p)
    | _, _ => .error "TypeError: unhashable type in dict key"

/-- The merge of `path_params_def + op_params_def` into `all_params_dict`
(lines 352-361); the caller takes `.values()`, i.e. `·.map Prod.snd`. -/
def mergeOpParams (root : Node) (ps : List Node) :
    Except String (List ((Scalar × Scalar) × Node)) :=
  ps.foldlM (mergeStep root) []

/-! ### Parameter classification (lines 366-379) -/

/-- One element of `path_params_in_spec` / `query_params_in_spec`: the tuple
`(py_name, p_name, desc, required)` of the source.  The description is stored
already rendered by `str` (its only use is inside emitted f-strings). -/
structure ParamSpec where
  py_name : String
  openapi_name : String
  descr : String
  required : Bool
deriving DecidableEq

/-- One iteration of the classification loop (lines 369-379). -/
def classifyStep (root : Node) (acc : List ParamSpec × List ParamSpec) (p0 : Node) :
    Except String (List ParamSpec × List ParamSpec) := do
  let param_def ← resolve_ref p0 root
  let p_in ← pyGetD param_def "in" (.str "")
  let p_nameN ← pyGetD param_def "name" (.str "")
  let descN ← pyGetD param_def "description" (.str "")
  let requiredN ← pyGetD param_def "required" (.bool false)
  match p_nameN with
  | .str p_name =>
    let spec : ParamSpec :=
      { py_name := sanitize_param_name p_name, openapi_name := p_name,
        descr := pyStr descN, required := truthy requiredN }
    if nodeEqStr p_in "path" then pure (acc.1 ++ [spec], acc.2)
    else if nodeEqStr p_in "query" then pure (acc.1, acc.2 ++ [spec])
    else pure acc
  | _ => .error "AttributeError: replace"

/-- The classification of the merged parameter list into
`(path_params_in_spec, query_params_in_spec)` (lines 366-379). -/
def classifyParams (root : Node) (ps : List Node) :
    Except String (List ParamSpec × List ParamSpec) :=
  ps.foldlM (classifyStep root) ([], [])

/-! ### `get_first_content_type` (lines 59-67) -/

/-- `get_first_content_type(method_obj)`: first declared content type, or
`none`.  Note the source does *not* resolve `$ref` on the request body here. -/
def get_first_content_type (method_obj : Node) : Except String (Option String) :=
  match method_obj with
  | .map kvs =>
    match alookupN "requestBody" kvs with
    | none => .ok none
    | some rb => do
      let content ← pyGetD rb "content" (.map [])
      if !truthy content then pure none
      else
        match content with
        | .map ((k, _) :: _) => pure (some k)
        | _ => .error "AttributeError: keys"
  | _ => .error "TypeError: argument is not iterable"

/-! ### `parse_request_body_fields` (lines 69-112) -/

/-- One element of the `results` list of `parse_request_body_fields`: the
tuple `(py_name, prop_name, is_file, desc, param_required, is_array_of_files)`. -/
structure FieldSpec where
  py_name : String
  openapi_name : String
  is_file : Bool
  descr : String
  required : Bool
  is_array_of_files : Bool
deriving DecidableEq

/-- The loop body of `parse_request_body_fields` (lines 96-111), classifying
one declared property.  `is_file` starts as `format == 'binary'` and is forced
to `true` (together with `is_array_of_files`) when the property is an array
whose items have binary format. -/
def classifyProp (root : Node) (required_fields : Node) (prop_name : String)
    (prop_obj0 : Node) : Except String FieldSpec := do
  let prop_obj ← resolve_ref prop_obj0 root
  let descN ← pyGetD prop_obj "description" (.str "")
  let fmtN ← pyGetD prop_obj "format" .null
  let typeN ← pyGetD prop_obj "type" .null
  let arrayBinary ←
    if nodeEqStr typeN "array" then do
      let itemsN ← pyGetD prop_obj "items" (.map [])
      let items_obj ← resolve_ref itemsN root
      let ifmtN ← pyGetD items_obj "format" .null
      pure (nodeEqStr ifmtN "binary")
    else pure false
  let req ← pyInNode prop_name required_fields
  pure { py_name := sanitize_param_name prop_name,
         openapi_name := prop_name,
         is_file := nodeEqStr fmtN "binary" || arrayBinary,
         descr := pyStr descN,
         required := req,
         is_array_of_files := arrayBinary }

/-- `parse_request_body_fields(method_obj, root_spec)` (lines 69-112). -/
def parse_request_body_fields (method_obj root : Node) : Except String (List FieldSpec) :=
  match method_obj with
  | .map kvs =>
    match alookupN "requestBody" kvs with
    | none => .ok []
    | some rb0 => do
      let rb ← resolve_ref rb0 root
      let content ← pyGetD rb "content" (.map [])
      if !truthy content then pure []
      else
        match content with
        | .map ((_, ctVal) :: _) => do
          let schema0 ← pyGetD ctVal "schema" (.map [])
          let schema ← resolve_ref schema0 root
          let typeN ← pyGetD schema "type" .null
          if !nodeEqStr typeN "object" then pure []
          else do
            let propsN ← pyGetD schema "properties" (.map [])
            let requiredN ← pyGetD schema "required" (.list [])
            match propsN with
            | .map props => props.mapM (fun kv => classifyProp root requiredN kv.1 kv.2)
            | _ => .error "AttributeError: items"
        | _ => .error "AttributeError: keys"
  | _ => .error "TypeError: argument is not iterable"

/-! ### `build_path_fstring` (lines 50-57) -/

/-- `build_path_fstring(path_str, path_params)`: replace each `(orig, py)`
placeholder in sequence. -/
def build_path_fstring (path_str : String) (path_params : List (String × String)) : String :=
  path_params.foldl (fun result op =>
    let placeholder := lbraceS ++ op.1 ++ rbraceS
    if containsSub result placeholder then
      String.mk (replaceSub result.data placeholder.data (lbraceS ++ op.2 ++ rbraceS).data)
    else result) path_str

/-! ### `build_function_code` (lines 114-279): emitted source text -/

/-- `method.lower() in ['post','put','patch']`. -/
def postPutPatch (method : String) : Bool :=
  ["post", "put", "patch"].contains (lowerStr method)

/-- The path/query loops of lines 128-143: extend `(doc_lines, sig_parts)`
with one doc line and one signature part per parameter. -/
def docSigPathQuery (tag : String) (ps : List ParamSpec) (acc : List String × List String) :
    List String × List String :=
  ps.foldl (fun acc p =>
    (acc.1 ++ ["  :param " ++ p.py_name ++ ": (" ++ tag ++ ") " ++ p.descr],
     acc.2 ++ [if p.required then p.py_name else p.py_name ++ "=None"])) acc

/-- The JSON-body loop of lines 149-154. -/
def docSigJsonBody (fs : List FieldSpec) (acc : List String × List String) :
    List String × List String :=
  fs.foldl (fun acc f =>
    (acc.1 ++ ["  :param " ++ f.py_name ++ ": (json) " ++ f.descr],
     acc.2 ++ [if f.required then f.py_name else f.py_name ++ "=None"])) acc

/-- The multipart-body loop of lines 157-167. -/
def docSigMultipartBody (fs : List FieldSpec) (acc : List String × List String) :
    List String × List String :=
  fs.foldl (fun acc f =>
    let doc :=
      if f.is_file && !f.is_array_of_files then
        "  :param " ++ f.py_name ++ ": (file) single file => (filename, fileobj)"
      else if f.is_file && f.is_array_of_files then
        "  :param " ++ f.py_name ++ ": (files) multiple files => list of (filename, fileobj)"
      else
        "  :param " ++ f.py_name ++ ": (form) " ++ f.descr
    (acc.1 ++ [doc],
     acc.2 ++ [if f.required then f.py_name else f.py_name ++ "=None"])) acc

/-- `doc_lines` and `sig_parts` of lines 123-169 (built in one pass in the
source; split here by section but in the same order). -/
def buildDocAndSig (method path : String) (pp qp : List ParamSpec) (bf : List FieldSpec)
    (ct : Option String) : List String × List String :=
  let acc0 := (["\"\"\"" ++ upperStr method ++ " " ++ path, "Parameters:"], ["self"])
  let acc1 := docSigPathQuery "path" pp acc0
  let acc2 := docSigPathQuery "query" qp acc1
  let acc3 :=
    if !bf.isEmpty then
      if ct == some "application/json" then
        docSigJsonBody bf (acc2.1 ++ ["  (Body is application/json)"], acc2.2)
      else if ct == some "multipart/form-data" then
        docSigMultipartBody bf (acc2.1 ++ ["  (Body is multipart/form-data)"], acc2.2)
      else acc2
    else acc2
  (acc3.1 ++ ["\"\"\""], acc3.2)

/-- `params_code` (lines 178-188). -/
def paramsCode (qp : List ParamSpec) : String :=
  if !qp.isEmpty then
    let param_lines := ["params = " ++ lbraceS]
      ++ qp.map (fun q => "    '" ++ q.openapi_name ++ "': " ++ q.py_name ++ ",")
      ++ [rbraceS, "# Filter out None values",
          "params = " ++ lbraceS ++ "k: v for k, v in params.items() if v is not None" ++ rbraceS]
    String.intercalate "\n    " param_lines
  else "params = None"

/-- `required_checks` (lines 190-194). -/
def requiredCheckLines (ps : List ParamSpec) : List String :=
  ps.filterMap (fun p =>
    if p.required then
      some ("if " ++ p.py_name ++ " is None: raise ValueError(\"Parameter '"
            ++ p.py_name ++ "' is required.\")")
    else none)

/-- `body_required_checks` entries (lines 207-208 and 222-223). -/
def bodyRequiredCheckLines (fs : List FieldSpec) : List String :=
  fs.filterMap (fun f =>
    if f.required then
      some ("if " ++ f.py_name ++ " is None: raise ValueError(\"Body field '"
            ++ f.py_name ++ "' is required.\")")
    else none)

/-- The JSON `data_code` block (lines 202-214). -/
def jsonDataCode (fs : List FieldSpec) : String :=
  let lines_rb := ["data = " ++ lbraceS ++ rbraceS, "files = None"]
    ++ (fs.foldl (fun acc f => acc ++
         ["if " ++ f.py_name ++ " is not None:",
          "    data['" ++ f.openapi_name ++ "'] = " ++ f.py_name]) [])
    ++ ["# Filter out None values in data dict",
        "data = " ++ lbraceS ++ "k: v for k, v in data.items() if v is not None" ++ rbraceS]
  String.intercalate "\n    " lines_rb

/-- The per-field multipart lines (lines 225-239). -/
def multipartFieldLines (f : FieldSpec) : List String :=
  ["if " ++ f.py_name ++ " is not None:"] ++
  (if f.is_file && !f.is_array_of_files then
    ["    files['" ++ f.openapi_name ++ "'] = " ++ f.py_name]
  else if f.is_file && f.is_array_of_files then
    ["    # If it's a list, each item is (filename, fileobj)",
     "    if isinstance(" ++ f.py_name ++ ", list):",
     "        for i, single_file in enumerate(" ++ f.py_name ++ "):",
     "            files[f'" ++ f.openapi_name ++ "[" ++ lbraceS ++ "i" ++ rbraceS
       ++ "]'] = single_file",
     "    else:",
     "        # maybe single-file fallback or raise an error",
     "        files['" ++ f.openapi_name ++ "'] = " ++ f.py_name]
  else
    ["    form_data['" ++ f.openapi_name ++ "'] = str(" ++ f.py_name ++ ")"])

/-- The multipart `data_code` block (lines 217-245). -/
def multipartDataCode (fs : List FieldSpec) : String :=
  let lines_rb := ["files = " ++ lbraceS ++ rbraceS, "form_data = " ++ lbraceS ++ rbraceS]
    ++ (fs.foldl (fun acc f => acc ++ multipartFieldLines f) [])
    ++ ["if not form_data:", "    form_data = None",
        "# We'll rename form_data to 'data' so the final call uses data=form_data",
        "data = form_data"]
  String.intercalate "\n    " lines_rb

/-- `data_code` dispatch (lines 197-246). -/
def dataCode (method : String) (fs : List FieldSpec) (ct : Option String) : String :=
  if postPutPatch method && !fs.isEmpty then
    if ct == some "application/json" then jsonDataCode fs
    else if ct == some "multipart/form-data" then multipartDataCode fs
    else "data = None"
  else "data = None"

/-- `build_function_code` (lines 114-279).  `root_spec` and `base_url` are
accepted (as in the source signature) but unused by the body. -/
def build_function_code (func_name method path : String) (pp qp : List ParamSpec)
    (bf : List FieldSpec) (ct : Option String) (root_spec : Node) (base_url : String) :
    String :=
  let docSig := buildDocAndSig method path pp qp bf ct
  let docstring := String.intercalate "\n" docSig.1
  let path_map := pp.map (fun p => (p.openapi_name, p.py_name))
  let f_str_path := build_path_fstring path path_map
  let endpoint_line := "endpoint = f\"" ++ f_str_path ++ "\""
  let params_code := paramsCode qp
  let required_checks := requiredCheckLines (pp ++ qp)
  let data_code := dataCode method bf ct
  let body_required_checks :=
    if postPutPatch method && !bf.isEmpty
        && (ct == some "application/json" || ct == some "multipart/form-data") then
      bodyRequiredCheckLines bf
    else []
  let ls := ["def " ++ func_name ++ "(" ++ String.intercalate ", " docSig.2 ++ "):",
             "    " ++ docstring]
    ++ required_checks.map (fun c => "    " ++ c)
    ++ ["    " ++ endpoint_line, "    " ++ params_code]
    ++ body_required_checks.map (fun c => "    " ++ c)
    ++ ["    " ++ data_code]
    ++ (if postPutPatch method && ct == some "multipart/form-data" then
         ["    # files dict might be set above if needed; else None",
          "    if form_data is None and not files:",
          "        form_data = None",
          "    return self.make_request(",
          "        '" ++ lowerStr method ++ "',",
          "        endpoint,",
          "        params=params,",
          "        data=data,  # form_data / None",
          "        files=files,",
          "    )"]
       else
         ["    return self.make_request(",
          "        '" ++ lowerStr method ++ "', endpoint, params=params, data=data",
          "    )"])
    ++ [""]
  String.intercalate "\n" ls

/-! ### The document driver `generate_api_client_from_openapi` (lines 281-404)

File reading/writing and the final `print` are I/O around the pure transform
and are not part of the embedded artifact; the function below maps the parsed
document to the full generated source text. -/

/-- Base-URL selection (lines 285-289). -/
def computeBaseUrl (spec : Node) : Except String String := do
  let servers ← pyGetD spec "servers" (.list [])
  match servers with
  | .list (first :: _) =>
    match first with
    | .map kvs =>
      match alookupN "url" kvs with
      | some (.str u) => pure (rstripSlash u)
      | some _ => .error "AttributeError: rstrip"
      | none => pure "https://api.sketchengine.eu"
    | .str s =>
      if containsSub s "url" then .error "TypeError: string indices must be integers"
      else pure "https://api.sketchengine.eu"
    | .list l =>
      if pyInStrList "url" l then .error "TypeError: list indices must be integers"
      else pure "https://api.sketchengine.eu"
    | _ => .error "TypeError: argument is not iterable"
  | _ => pure "https://api.sketchengine.eu"

/-- The fixed class preamble plus `make_request` (lines 292-337), one string
per `lines.append`. -/
def preambleLines (base_url : String) : List String :=
  ["# This file is AUTO-GENERATED by generate_sketchengine_api.py",
   "import requests",
   "import os\n",
   "class SketchEngineClient:",
   "    BASE_URL = \"" ++ base_url ++ "\"",
   "",
   "    def __init__(self, api_key=None):",
   "        self.api_key = api_key or os.environ.get('SKETCH_ENGINE_API_KEY')",
   "        if not self.api_key:",
   "            raise ValueError(\"API key must be provided either directly or through SKETCH_ENGINE_API_KEY environment variable\")",
   "",
   "        self.session = requests.Session()",
   "        self.session.headers.update(" ++ lbraceS,
   "            'Authorization': f'Bearer " ++ lbraceS ++ "self.api_key" ++ rbraceS ++ "'",
   "        " ++ rbraceS ++ ")",
   "",
   "    def make_request(self, method, endpoint, params=None, data=None, files=None):",
   "        \"\"\"",
   "        Make a request to the Sketch Engine API",
   "",
   "        Args:",
   "            method (str): HTTP method",
   "            endpoint (str): API endpoint path",
   "            params (dict, optional): query parameters",
   "            data (dict or None, optional): JSON or form data",
   "            files (dict or None, optional): For multipart form-data",
   "",
   "        Returns:",
   "            requests.Response",
   "        \"\"\"",
   "        url = f\"" ++ lbraceS ++ "self.BASE_URL" ++ rbraceS ++ lbraceS ++ "endpoint"
     ++ rbraceS ++ "\"",
   "        try:",
   "            if files:",
   "                # multipart form-data likely",
   "                response = self.session.request(method=method, url=url, params=params, data=data, files=files)",
   "            else:",
   "                # normal JSON or query usage",
   "                if method.upper() in ['POST','PUT','PATCH'] and isinstance(data, dict) and not files:",
   "                    # We'll guess it's JSON",
   "                    response = self.session.request(method=method, url=url, params=params, json=data)",
   "                else:",
   "                    response = self.session.request(method=method, url=url, params=params, json=data)",
   "            response.raise_for_status()",
   "            return response",
   "        except requests.exceptions.RequestException as e:",
   "            raise\n"]

/-- The recognized HTTP methods (line 348). -/
def methodNames : List String :=
  ["get", "post", "put", "patch", "delete", "head", "options"]

/-- One recognized `(method, method_obj)` operation (lines 351-399): merge
parameters, classify, read the content type, extract body fields, emit the
function and indent it into the class. -/
def buildOperation (spec : Node) (base_url path : String) (path_params_def_node : Node)
    (method : String) (method_obj : Node) : Except String (List String) := do
  let ppdef ← match path_params_def_node with
    | .list l => pure l
    | _ => Except.error "TypeError: can only concatenate list"
  let opdefN ← pyGetD method_obj "parameters" (.list [])
  let opdef ← match opdefN with
    | .list l => pure l
    | _ => Except.error "TypeError: can only concatenate list"
  let merged ← mergeOpParams spec (ppdef ++ opdef)
  let all_params := merged.map Prod.snd
  let pq ← classifyParams spec all_params
  let ct ← get_first_content_type method_obj
  let rb_fields ← parse_request_body_fields method_obj spec
  let func_name := generate_function_name method path
  let code := build_function_code func_name method path pq.1 pq.2 rb_fields ct spec base_url
  pure ((splitOnChar '\n' code.data).map (fun line => "    " ++ line))

/-- One path item (lines 342-399): read path-level `parameters`, then iterate
the mapping, skipping non-mapping values and unrecognized method names. -/
def buildPathItem (spec : Node) (base_url path : String) (path_item : Node) :
    Except String (List String) :=
  match path_item with
  | .map kvs =>
    let path_params_def := (alookupN "parameters" kvs).getD (.list [])
    kvs.foldlM (fun acc kv =>
      match kv.2 with
      | .map _ =>
        if !methodNames.contains (lowerStr kv.1) then pure acc
        else do
          let ls ← buildOperation spec base_url path path_params_def kv.1 kv.2
          pure (acc ++ ls)
      | _ => pure acc) []
  | _ => .error "AttributeError: get"

/-- `generate_api_client_from_openapi` as a pure document-to-text transform
(lines 281-402, minus file I/O): preamble, then every (path, method) callable
in document order, joined by newlines. -/
def generate_api_client_from_openapi (spec : Node) : Except String String := do
  let base_url ← computeBaseUrl spec
  let pre := preambleLines base_url
  let pathsN ← pyGetD spec "paths" (.map [])
  match pathsN with
  | .map pathItems => do
    let funcLines ← pathItems.foldlM (fun acc kv => do
        let ls ← buildPathItem spec base_url kv.1 kv.2
        pure (acc ++ ls)) []
    pure (String.intercalate "\n" (pre ++ funcLines))
  | _ => .error "AttributeError: items"

/-! ### Run-time semantics of the generated callables

`runGeneratedCall` executes, step for step, the statements that
`build_function_code` emits into one callable: the required-parameter checks,
the endpoint f-string, the query dict with `None` filtering, the
body-required checks, and the JSON / multipart body assembly, ending in the
argument record handed to `make_request` (the transport boundary). -/

/-- A Python value supplied to a generated callable at run time.  File
payloads are opaque tags; numbers beyond `int` are not needed by any claim. -/
inductive Val where
  | vstr (s : String) : Val
  | vint (i : Int) : Val
  | vfile (tag : String) : Val
  | vlist (l : List Val) : Val

mutual

/-- Python `str()` of a run-time value (f-string rendering, form coercion). -/
def valStr : Val → String
  | .vstr s => s
  | .vint i => toString i
  | .vfile t => t
  | .vlist l => "[" ++ valReprList l ++ "]"

/-- Python `repr` of a run-time value (used inside rendered containers). -/
def valRepr : Val → String
  | .vstr s => "'" ++ s ++ "'"
  | .vint i => toString i
  | .vfile t => t
  | .vlist l => "[" ++ valReprList l ++ "]"

/-- Comma-joined `repr`s. -/
def valReprList : List Val → String
  | [] => ""
  | [x] => valRepr x
  | x :: rest => valRepr x ++ ", " ++ valReprList rest

end

/-- `d[k] = v` on an insertion-ordered Python dict. -/
def dictInsert {α : Type} (d : List (String × α)) (k : String) (v : α) :
    List (String × α) :=
  if d.any (fun kv => kv.1 == k) then d.map (fun kv => if kv.1 == k then (k, v) else kv)
  else d ++ [(k, v)]

/-- First-match lookup in a run-time dict. -/
def dictFind {α : Type} (k : String) : List (String × α) → Option α
  | [] => none
  | kv :: rest => if kv.1 == k then some kv.2 else dictFind k rest

/-- The emitted `if {py} is None: raise ValueError("Parameter '{py}' is
required.")` checks, executed in order; the first failing check raises. -/
def requiredParamChecks (ps : List ParamSpec) (args : String → Option Val) :
    Except String Unit :=
  match ps with
  | [] => .ok ()
  | p :: rest =>
    if p.required && (args p.py_name).isNone then
      .error ("Parameter '" ++ p.py_name ++ "' is required.")
    else requiredParamChecks rest args

/-- The emitted `if {py} is None: raise ValueError("Body field '{py}' is
required.")` checks, executed in order. -/
def requiredFieldChecks (fs : List FieldSpec) (args : String → Option Val) :
    Except String Unit :=
  match fs with
  | [] => .ok ()
  | f :: rest =>
    if f.required && (args f.py_name).isNone then
      .error ("Body field '" ++ f.py_name ++ "' is required.")
    else requiredFieldChecks rest args

/-- Body-required checks are emitted only for POST/PUT/PATCH operations with
a nonempty field list and a JSON or multipart content type (lines 201-223). -/
def bodyChecksActive (method : String) (bf : List FieldSpec) (ct : Option String) : Bool :=
  postPutPatch method && !bf.isEmpty
    && (ct == some "application/json" || ct == some "multipart/form-data")

/-- How an f-string renders an argument: `None` prints as `None`. -/
def renderArg : Option Val → String
  | none => "None"
  | some v => valStr v

/-- Evaluation of the emitted `endpoint = f"..."` template: literal text is
copied, `{name}` fields are looked up in the environment. -/
def fstrGo (env : String → Except String (Option Val)) :
    List Char → Bool → List Char → List Char → Except String String
  | [], inBrace, _, out =>
    if inBrace then .error "SyntaxError: unterminated field in f-string"
    else .ok (String.mk out)
  | c :: rest, true, nameAcc, out =>
    if c == rbrace then
      match env (String.mk nameAcc) with
      | .ok v => fstrGo env rest false [] (out ++ (renderArg v).data)
      | .error e => .error e
    else fstrGo env rest true (nameAcc ++ [c]) out
  | c :: rest, false, nameAcc, out =>
    if c == lbrace then fstrGo env rest true [] out
    else if c == rbrace then .error "SyntaxError: single closing brace in f-string"
    else fstrGo env rest false nameAcc (out ++ [c])

/-- Run an emitted f-string template against an argument environment. -/
def formatFString (template : String) (env : String → Except String (Option Val)) :
    Except String String :=
  fstrGo env template.data false [] []

/-- The names bound in the generated signature (body fields appear only for
the JSON / multipart content types, mirroring lines 146-167). -/
def declaredNames (pp qp : List ParamSpec) (bf : List FieldSpec) (ct : Option String) :
    List String :=
  (pp ++ qp).map (fun p => p.py_name) ++
  (if !bf.isEmpty && (ct == some "application/json" || ct == some "multipart/form-data")
   then bf.map (fun f => f.py_name) else [])

/-- Name lookup inside the generated function: undeclared names raise. -/
def argEnv (declared : List String) (args : String → Option Val) (name : String) :
    Except String (Option Val) :=
  if declared.contains name then .ok (args name)
  else .error ("NameError: name '" ++ name ++ "' is not defined")

/-- The emitted query-params block: a dict keyed by original names, then
`None` values filtered out; `params = None` when there are no query params. -/
def queryParamsBundle (qp : List ParamSpec) (args : String → Option Val) :
    Option (List (String × Val)) :=
  if !qp.isEmpty then
    let params0 := qp.foldl (fun d q => dictInsert d q.openapi_name (args q.py_name)) []
    some (params0.filterMap (fun kv => kv.2.map (fun v => (kv.1, v))))
  else none

/-- One supplied JSON field: `if {py} is not None: data['{orig}'] = {py}`. -/
def jsonStep (args : String → Option Val) (d : List (String × Val)) (f : FieldSpec) :
    List (String × Val) :=
  match args f.py_name with
  | some v => dictInsert d f.openapi_name v
  | none => d

/-- The emitted JSON body assembly (lines 204-213): supplied fields are
written into `data` under their original names, in declaration order. -/
def jsonDataBundle (bf : List FieldSpec) (args : String → Option Val) :
    List (String × Val) :=
  bf.foldl (jsonStep args) []

/-- The loop `for i, single_file in enumerate(v): files[f'name[{i}]'] =
single_file`, with the running `enumerate` index made explicit. -/
def explodeFrom (orig : String) : List (String × Val) → Nat → List Val → List (String × Val)
  | files, _, [] => files
  | files, i, v :: rest =>
    explodeFrom orig (dictInsert files (orig ++ "[" ++ toString i ++ "]") v) (i + 1) rest

/-- `for i, single_file in enumerate(v): files[f'name[{i}]'] = single_file`. -/
def explodeFiles (files : List (String × Val)) (orig : String) (vs : List Val) :
    List (String × Val) :=
  explodeFrom orig files 0 vs

/-- One supplied multipart field (lines 225-239): single files into `files`,
lists of an array-of-files field exploded with indexed keys, a non-list value
of such a field written under the plain name, scalars coerced with `str` into
`form_data`. -/
def multipartStep (args : String → Option Val)
    (acc : List (String × Val) × List (String × Val)) (f : FieldSpec) :
    List (String × Val) × List (String × Val) :=
  match args f.py_name with
  | none => acc
  | some v =>
    if f.is_file && !f.is_array_of_files then (dictInsert acc.1 f.openapi_name v, acc.2)
    else if f.is_file && f.is_array_of_files then
      match v with
      | .vlist vs => (explodeFiles acc.1 f.openapi_name vs, acc.2)
      | _ => (dictInsert acc.1 f.openapi_name v, acc.2)
    else (acc.1, dictInsert acc.2 f.openapi_name (.vstr (valStr v)))

/-- The multipart body assembly (lines 217-245): returns `(data, files)`;
an empty `form_data` dict becomes `None` (lines 241-242), while `files` is
always passed as a (possibly empty) dict. -/
def multipartBundles (bf : List FieldSpec) (args : String → Option Val) :
    Option (List (String × Val)) × Option (List (String × Val)) :=
  let fr := bf.foldl (multipartStep args) ([], [])
  (if fr.2.isEmpty then none else some fr.2, some fr.1)

/-- `(data, files)` as assembled by the emitted body code (lines 197-246). -/
def buildBody (method : String) (ct : Option String) (bf : List FieldSpec)
    (args : String → Option Val) :
    Option (List (String × Val)) × Option (List (String × Val)) :=
  if postPutPatch method && !bf.isEmpty then
    if ct == some "application/json" then (some (jsonDataBundle bf args), none)
    else if ct == some "multipart/form-data" then multipartBundles bf args
    else (none, none)
  else (none, none)

/-- The argument record a generated callable hands to `make_request`. -/
structure Request where
  method : String
  endpoint : String
  params : Option (List (String × Val))
  data : Option (List (String × Val))
  files : Option (List (String × Val))

/-- Run-time behaviour of one generated callable, mirroring the emitted
statements in order: required path/query checks, endpoint f-string, query
bundle, body-required checks, body assembly, dispatch.  A POST/PUT/PATCH
multipart operation whose field list is empty references the undefined
`form_data`/`files` names (lines 262-265 are emitted even though `data_code`
never assigned them), which raises `NameError` at run time. -/
def runGeneratedCall (method path : String) (pp qp : List ParamSpec)
    (bf : List FieldSpec) (ct : Option String) (args : String → Option Val) :
    Except String Request := do
  requiredParamChecks (pp ++ qp) args
  let template := build_path_fstring path (pp.map (fun p => (p.openapi_name, p.py_name)))
  let endpoint ← formatFString template (argEnv (declaredNames pp qp bf ct) args)
  let params := queryParamsBundle qp args
  if bodyChecksActive method bf ct then requiredFieldChecks bf args else pure ()
  if postPutPatch method && ct == some "multipart/form-data" && bf.isEmpty then
    Except.error "NameError: name 'form_data' is not defined"
  else
    let df := buildBody method ct bf args
    pure { method := lowerStr method, endpoint := endpoint, params := params,
           data := df.1, files := df.2 }

/-! ### Statement helpers

Definitions used only to *state* the verified properties (they re-express
pieces of the embedded code in a form the theorems can quantify over). -/

/-- The merge key `(p_in, p_name)` that `mergeStep` files a (already
resolved) parameter node under; `none` when the node would be skipped or is
not a plain mapping. -/
def paramKey (p : Node) : Option (Scalar × Scalar) :=
  match p with
  | .map kvs =>
    let p_in := (alookupN "in" kvs).getD .null
    let p_name := (alookupN "name" kvs).getD .null
    if !truthy p_in || !truthy p_name then none
    else
      match toScalar p_in, toScalar p_name with
      | some ki, some kn => some (ki, kn)
      | _, _ => none
  | _ => none

/-- A parameter node that resolves to itself (no `$ref`) and carries a
truthy, hashable `(in, name)` key. -/
def plainParam (p : Node) : Bool :=
  match p with
  | .map kvs => (alookupN "$ref" kvs).isNone && (paramKey p).isSome
  | _ => false

/-- The pure content of one merge iteration on a plain node. -/
def pureMergeStep (acc : List ((Scalar × Scalar) × Node)) (p : Node) :
    List ((Scalar × Scalar) × Node) :=
  match paramKey p with
  | some k => upsertK acc k p
  | none => acc

/-- The pure content of the whole merge on plain nodes. -/
def pureMerge (ps : List Node) : List ((Scalar × Scalar) × Node) :=
  ps.foldl pureMergeStep []

/-- First-match lookup among merged `(key, node)` entries. -/
def klookup (k : Scalar × Scalar) : List ((Scalar × Scalar) × Node) → Option Node
  | [] => none
  | kv :: rest => if kv.1 == k then some kv.2 else klookup k rest

/-- Keys in order of first appearance, given the keys already seen. -/
def newKeys (seen : List (Scalar × Scalar)) : List (Scalar × Scalar) → List (Scalar × Scalar)
  | [] => []
  | k :: rest =>
    if seen.any (fun x => x == k) then newKeys seen rest
    else k :: newKeys (seen ++ [k]) rest

/-- Keys in order of first appearance. -/
def firstOccKeys (ks : List (Scalar × Scalar)) : List (Scalar × Scalar) := newKeys [] ks

/-- The last declaration in `ps` filed under key `k`. -/
def lastWithKey (k : Scalar × Scalar) (ps : List Node) : Option Node :=
  (ps.filter (fun p => paramKey p == some k)).getLast?

/-- The `files`-dict keys one multipart field writes at run time. -/
def multipartFileKeys (args : String → Option Val) (f : FieldSpec) : List String :=
  match args f.py_name with
  | none => []
  | some v =>
    if f.is_file && !f.is_array_of_files then [f.openapi_name]
    else if f.is_file && f.is_array_of_files then
      match v with
      | .vlist vs => (List.range vs.length).map
          (fun i => f.openapi_name ++ "[" ++ toString i ++ "]")
      | _ => [f.openapi_name]
    else []

/-- The `form_data`-dict keys one multipart field writes at run time. -/
def multipartFormKeys (args : String → Option Val) (f : FieldSpec) : List String :=
  match args f.py_name with
  | none => []
  | some _ => if f.is_file then [] else [f.openapi_name]

/-- Fuel-free rendering of the decimal digits of a natural number (the list
`Nat.toDigits 10 n` computes with fuel); used to reason about the indexed
multipart file keys `name[0]`, `name[1]`, .... -/
def toDigitsAux (n : Nat) : List Char :=
  if _h : n < 10 then [Nat.digitChar n]
  else toDigitsAux (n / 10) ++ [Nat.digitChar (n % 10)]
termination_by n
decreasing_by exact Nat.div_lt_self (by omega) (by omega)

/-- A document whose single operation carries an unresolvable `$ref`,
exercising the fatal-abort path of the generator. -/
def exampleBadRefDoc : Node := .map [
  ("paths", .map [
    ("/a", .map [
      ("get", .map [
        ("parameters", .list [.map [("$ref", .str "#/components/parameters/missing")]])
      ])
    ])
  ]),
  ("components", .map [("parameters", .map [])])]

/-! ## Theorems -/

/-! ### Properties of `sanitize_param_name` -/

theorem underscoreNonIdent_ident {cs : List Char} :
    ∀ c ∈ underscoreNonIdent cs, isIdentChar c = true := by
  intro c hc
  unfold underscoreNonIdent at hc
  obtain ⟨a, _, rfl⟩ := List.mem_map.mp hc
  by_cases h : isIdentChar a
  · simp [h]
  · simp [h]
    decide

theorem sanitizeChars_ident (cs : List Char) :
    ∀ c ∈ sanitizeChars cs, isIdentChar c = true := by
  intro c hc
  unfold sanitizeChars keywordGuard at hc
  split at hc
  · rcases List.mem_append.mp hc with h | h
    · exact underscoreNonIdent_ident c h
    · simp only [List.mem_cons, List.not_mem_nil, or_false] at h
      rcases h with rfl | rfl | rfl | rfl | rfl | rfl <;> decide
  · exact underscoreNonIdent_ident c hc

theorem startsWithDigit_append (l1 l2 : List Char)
    (h1 : startsWithDigit l1 = false) (h2 : startsWithDigit l2 = false) :
    startsWithDigit (l1 ++ l2) = false := by
  cases l1 with
  | nil => simpa using h2
  | cons c t => simpa [startsWithDigit] using h1

theorem underscoreNonIdent_no_digit {cs : List Char} (h : startsWithDigit cs = false) :
    startsWithDigit (underscoreNonIdent cs) = false := by
  cases cs with
  | nil => rfl
  | cons c t =>
    simp only [startsWithDigit] at h
    simp only [underscoreNonIdent, List.map_cons, startsWithDigit]
    by_cases hc : isIdentChar c
    · simpa [hc]
    · simp [hc]
      decide

theorem sanitizeChars_no_digit (cs : List Char) :
    startsWithDigit (sanitizeChars cs) = false := by
  unfold sanitizeChars
  have h3 : startsWithDigit
      (underscoreNonIdent (digitGuard (dropCloseBracket (replaceOpenBracket cs)))) = false := by
    unfold digitGuard
    split
    · simp only [underscoreNonIdent, List.map_cons, startsWithDigit]
      decide
    · rename_i h
      exact underscoreNonIdent_no_digit (Bool.of_not_eq_true h |>.symm ▸ rfl)
  unfold keywordGuard
  split
  · exact startsWithDigit_append _ _ h3 (by decide)
  · exact h3

theorem underscore_notin_keywords : ∀ k ∈ pythonKeywords, '_' ∉ k.data := by decide

theorem sanitizeChars_not_keyword (cs : List Char) :
    String.mk (sanitizeChars cs) ∉ pythonKeywords := by
  unfold sanitizeChars keywordGuard
  split
  · intro hmem
    have h := underscore_notin_keywords _ hmem
    simp only [String.data] at h
    exact h (List.mem_append.mpr (Or.inr (by simp)))
  · rename_i h
    exact h

theorem replaceOpenBracket_id {cs : List Char} (h : ∀ c ∈ cs, isIdentChar c = true) :
    replaceOpenBracket cs = cs := by
  unfold replaceOpenBracket
  induction cs with
  | nil => rfl
  | cons c t ih =>
    have hc := h c (by simp)
    have hne : (c == '[') = false := by
      cases hcc : c == '[' with
      | false => rfl
      | true =>
        rw [eq_of_beq hcc] at hc
        exact absurd hc (by decide)
    rw [List.map_cons, if_neg (by simp [hne]), ih (fun d hd => h d (by simp [hd]))]

theorem dropCloseBracket_id {cs : List Char} (h : ∀ c ∈ cs, isIdentChar c = true) :
    dropCloseBracket cs = cs := by
  unfold dropCloseBracket
  apply List.filter_eq_self.mpr
  intro c hc
  have hcid := h c hc
  show (c != ']') = true
  cases hcc : c == ']' with
  | false => simp [bne, hcc]
  | true =>
    rw [eq_of_beq hcc] at hcid
    exact absurd hcid (by decide)

theorem digitGuard_id {cs : List Char} (h : startsWithDigit cs = false) :
    digitGuard cs = cs := by
  simp [digitGuard, h]

theorem underscoreNonIdent_id {cs : List Char} (h : ∀ c ∈ cs, isIdentChar c = true) :
    underscoreNonIdent cs = cs := by
  unfold underscoreNonIdent
  induction cs with
  | nil => rfl
  | cons c t ih =>
    simp only [List.map_cons]
    rw [if_pos (h c (by simp)), ih (fun d hd => h d (by simp [hd]))]

theorem keywordGuard_id {cs : List Char} (h : String.mk cs ∉ pythonKeywords) :
    keywordGuard cs = cs := by
  simp [keywordGuard, h]

theorem sanitizeChars_idem (cs : List Char) :
    sanitizeChars (sanitizeChars cs) = sanitizeChars cs := by
  have hident := sanitizeChars_ident cs
  have hnd := sanitizeChars_no_digit cs
  have hnk := sanitizeChars_not_keyword cs
  show keywordGuard (underscoreNonIdent (digitGuard (dropCloseBracket
    (replaceOpenBracket (sanitizeChars cs))))) = sanitizeChars cs
  rw [replaceOpenBracket_id hident, dropCloseBracket_id hident, digitGuard_id hnd,
    underscoreNonIdent_id hident, keywordGuard_id hnk]

/-- C10: `sanitize_param_name` is idempotent — sanitizing an
already-sanitized identifier returns it unchanged, because the output
contains only `[0-9a-zA-Z_]` characters, never starts with a digit, and is
never a Python keyword. -/
theorem sanitize_param_name_idempotent (s : String) :
    sanitize_param_name (sanitize_param_name s) = sanitize_param_name s := by
  unfold sanitize_param_name
  have hdata : (String.mk (sanitizeChars s.data)).data = sanitizeChars s.data := rfl
  rw [hdata, sanitizeChars_idem]

/-! ### C1: sanitized names are well-formed but never deduplicated -/

theorem classifyStep_shape (root : Node) (acc : List ParamSpec × List ParamSpec)
    (q : Node) (acc' : List ParamSpec × List ParamSpec)
    (h : classifyStep root acc q = .ok acc') :
    ∀ p ∈ acc'.1 ++ acc'.2,
      p ∈ acc.1 ++ acc.2 ∨ p.py_name = sanitize_param_name p.openapi_name := by
  intro p hp
  cases hr : resolve_ref q root with
  | error e => simp [classifyStep, hr, bind, Except.bind] at h
  | ok pd =>
    cases pd with
    | map kvs =>
      simp only [classifyStep, hr, bind, Except.bind, pyGetD] at h
      cases hname : (alookupN "name" kvs).getD (.str "") with
      | str p_name =>
        rw [hname] at h
        by_cases h1 : nodeEqStr ((alookupN "in" kvs).getD (.str "")) "path"
        · simp only [h1, if_true] at h
          cases h
          rcases List.mem_append.mp hp with hpl | hpr
          · rcases List.mem_append.mp hpl with hh | hh
            · exact Or.inl (List.mem_append.mpr (Or.inl hh))
            · simp only [List.mem_singleton] at hh
              subst hh
              exact Or.inr rfl
          · exact Or.inl (List.mem_append.mpr (Or.inr hpr))
        · by_cases h2 : nodeEqStr ((alookupN "in" kvs).getD (.str "")) "query"
          · simp only [h1, h2, if_false, if_true] at h
            cases h
            rcases List.mem_append.mp hp with hpl | hpr
            · exact Or.inl (List.mem_append.mpr (Or.inl hpl))
            · rcases List.mem_append.mp hpr with hh | hh
              · exact Or.inl (List.mem_append.mpr (Or.inr hh))
              · simp only [List.mem_singleton] at hh
                subst hh
                exact Or.inr rfl
          · simp only [h1, h2, if_false] at h
            cases h
            exact Or.inl hp
      | null => rw [hname] at h; cases h
      | bool b => rw [hname] at h; cases h
      | int i => rw [hname] at h; cases h
      | list l => rw [hname] at h; cases h
      | map m => rw [hname] at h; cases h
    | null => simp [classifyStep, hr, bind, Except.bind, pyGetD] at h
    | bool b => simp [classifyStep, hr, bind, Except.bind, pyGetD] at h
    | int i => simp [classifyStep, hr, bind, Except.bind, pyGetD] at h
    | str s => simp [classifyStep, hr, bind, Except.bind, pyGetD] at h
    | list l => simp [classifyStep, hr, bind, Except.bind, pyGetD] at h

theorem classifyFold_py (root : Node) : ∀ (ps : List Node)
    (acc out : List ParamSpec × List ParamSpec),
    ps.foldlM (classifyStep root) acc = .ok out →
    (∀ p ∈ acc.1 ++ acc.2, p.py_name = sanitize_param_name p.openapi_name) →
    ∀ p ∈ out.1 ++ out.2, p.py_name = sanitize_param_name p.openapi_name := by
  intro ps
  induction ps with
  | nil =>
    intro acc out h hacc
    simp only [List.foldlM_nil, pure, Except.pure, Except.ok.injEq] at h
    subst h
    exact hacc
  | cons q rest ih =>
    intro acc out h hacc
    rw [List.foldlM_cons] at h
    cases hs : classifyStep root acc q with
    | error e => rw [hs] at h; simp [bind, Except.bind] at h
    | ok acc' =>
      rw [hs] at h
      simp only [bind, Except.bind] at h
      refine ih acc' out h ?_
      intro p hp
      rcases classifyStep_shape root acc q acc' hs p hp with hin | hnew
      · exact hacc p hin
      · exact hnew

/-- C1 (corrected): for every input, `sanitize_param_name` yields an
identifier that never starts with a digit and never contains `[` or `]`;
however, the generator performs *no* per-operation collision resolution:
every classified parameter's identifier is exactly `sanitize_param_name` of
its declared name (never an `_2`/`_3`-suffixed variant), so two distinct
declared names with the same sanitized base collide. -/
theorem sanitize_wellformed_no_dedup :
    (∀ s : String, startsWithDigit (sanitize_param_name s).data = false
      ∧ '[' ∉ (sanitize_param_name s).data ∧ ']' ∉ (sanitize_param_name s).data)
    ∧ (∀ (root : Node) (ps : List Node) (pq : List ParamSpec × List ParamSpec),
        classifyParams root ps = .ok pq →
        ∀ p ∈ pq.1 ++ pq.2, p.py_name = sanitize_param_name p.openapi_name) := by
  constructor
  · intro s
    refine ⟨sanitizeChars_no_digit s.data, ?_, ?_⟩
    · intro hmem
      have := sanitizeChars_ident s.data _ hmem
      exact absurd this (by decide)
    · intro hmem
      have := sanitizeChars_ident s.data _ hmem
      exact absurd this (by decide)
  · intro root ps pq h
    exact classifyFold_py root ps ([], []) pq h (by simp)

/-- Witness for C1: the well-formedness clause at `"9[x]"` and the
pointwise-sanitization clause at a concrete two-parameter operation. -/
theorem sanitize_wellformed_no_dedup_witness :
    ('[' ∉ (sanitize_param_name "9[x]").data)
    ∧ (∀ p ∈ ([] : List ParamSpec) ++
        [{ py_name := "a_b", openapi_name := "a b", descr := "", required := false },
         { py_name := "a_b", openapi_name := "a-b", descr := "", required := false }],
        p.py_name = sanitize_param_name p.openapi_name) := by
  constructor
  · exact (sanitize_wellformed_no_dedup.1 "9[x]").2.1
  · exact sanitize_wellformed_no_dedup.2 Node.null
      [Node.map [("in", Node.str "query"), ("name", Node.str "a b")],
       Node.map [("in", Node.str "query"), ("name", Node.str "a-b")]]
      ([], [{ py_name := "a_b", openapi_name := "a b", descr := "", required := false },
            { py_name := "a_b", openapi_name := "a-b", descr := "", required := false }])
      (by rfl)

/-- C1 counterexample: the distinct declared query names `"a b"` and
`"a-b"` of one operation both classify to the identifier `a_b`; the second
occurrence does not get an `_2` suffix, so the claimed per-operation
collision resolution does not exist. -/
theorem sanitize_collision_counterexample :
    classifyParams Node.null
      [Node.map [("in", Node.str "query"), ("name", Node.str "a b")],
       Node.map [("in", Node.str "query"), ("name", Node.str "a-b")]]
      = .ok ([], [{ py_name := "a_b", openapi_name := "a b", descr := "", required := false },
                  { py_name := "a_b", openapi_name := "a-b", descr := "", required := false }])
    ∧ "a b" ≠ "a-b" := ⟨rfl, by decide⟩

/-! ### C9: the reference resolver contract -/

/-- C9: `resolve_ref` returns its input unchanged when it has no `$ref` key;
a `$ref` string not starting with `#/` raises `Unsupported $ref format`; when
the pointer walk fails, its error propagates out of `resolve_ref` unchanged;
a walk step over a missing segment fails with a `KeyError`; and such an error
aborts an entire generation run (shown on a concrete document whose only
operation holds an unresolvable `$ref`). -/
theorem resolve_ref_contract :
    (∀ (obj root : Node), nodeGet obj "$ref" = none → resolve_ref obj root = .ok obj)
    ∧ (∀ (root : Node) (kvs : List (String × Node)) (r : String),
        alookupN "$ref" kvs = some (.str r) → strStartsWith r "#/" = false →
        resolve_ref (.map kvs) root = .error ("Unsupported $ref format: " ++ r))
    ∧ (∀ (root : Node) (kvs : List (String × Node)) (r m : String),
        alookupN "$ref" kvs = some (.str r) → strStartsWith r "#/" = true →
        walkPath (splitOnChar '/' (r.data.drop 2)) root = .error m →
        resolve_ref (.map kvs) root = .error m)
    ∧ (∀ (part : String) (rest : List String) (node : Node),
        nodeGet node part = none →
        walkPath (part :: rest) node = .error ("KeyError: " ++ part))
    ∧ generate_api_client_from_openapi exampleBadRefDoc = .error "KeyError: missing" := by
  refine ⟨?_, ?_, ?_, ?_, ?_⟩
  · intro obj root h
    cases obj with
    | map kvs =>
      simp only [nodeGet] at h
      simp [resolve_ref, h]
    | null => rfl
    | bool b => rfl
    | int i => rfl
    | str s => rfl
    | list l => rfl
  · intro root kvs r h1 h2
    simp [resolve_ref, h1, h2]
  · intro root kvs r m h1 h2 h3
    simp [resolve_ref, h1, h2, h3]
  · intro part rest node h
    simp [walkPath, h]
  · rfl

/-- Witness for C9: every clause of the contract applied at concrete inputs. -/
theorem resolve_ref_contract_witness :
    resolve_ref (.str "leaf") Node.null = .ok (.str "leaf")
    ∧ resolve_ref (.map [("$ref", .str "http://x")]) Node.null
        = .error "Unsupported $ref format: http://x"
    ∧ resolve_ref (.map [("$ref", .str "#/a/b")]) (.map [("a", .map [])])
        = .error "KeyError: b"
    ∧ walkPath ["b"] (.map []) = .error "KeyError: b"
    ∧ generate_api_client_from_openapi exampleBadRefDoc = .error "KeyError: missing" := by
  refine ⟨resolve_ref_contract.1 _ Node.null rfl,
    resolve_ref_contract.2.1 Node.null _ "http://x" rfl rfl, ?_,
    resolve_ref_contract.2.2.2.1 "b" [] _ rfl,
    resolve_ref_contract.2.2.2.2⟩
  exact resolve_ref_contract.2.2.1 _ _ "#/a/b" "KeyError: b" rfl rfl (by rfl)

/-! ### C5: parameter merge — operation level wins, first-appearance order -/

theorem klookup_map_update_ne (acc : List ((Scalar × Scalar) × Node))
    (k' k : Scalar × Scalar) (p : Node) (hne : k' ≠ k) :
    klookup k (acc.map (fun kv => if kv.1 == k' then (k', p) else kv)) =
      klookup k acc := by
  induction acc with
  | nil => rfl
  | cons kv rest ih =>
    simp only [List.map_cons, klookup]
    by_cases hkv : kv.1 == k'
    · have hkv' : kv.1 = k' := eq_of_beq hkv
      simp only [hkv, if_true, klookup]
      have h1 : (k' == k) = false := beq_eq_false_iff_ne.mpr hne
      have h2 : (kv.1 == k) = false := beq_eq_false_iff_ne.mpr (hkv' ▸ hne)
      rw [h1, h2]
      simp only [Bool.false_eq_true, if_false]
      exact ih
    · simp only [hkv, Bool.false_eq_true, if_false, klookup]
      by_cases hk2 : kv.1 == k
      · simp [hk2]
      · simp only [hk2, Bool.false_eq_true, if_false]
        exact ih

theorem klookup_map_update_eq (acc : List ((Scalar × Scalar) × Node))
    (k : Scalar × Scalar) (p : Node)
    (hmem : acc.any (fun kv => kv.1 == k) = true) :
    klookup k (acc.map (fun kv => if kv.1 == k then (k, p) else kv)) = some p := by
  induction acc with
  | nil => simp at hmem
  | cons kv rest ih =>
    cases hkv : kv.1 == k with
    | true =>
      simp only [List.map_cons, hkv, if_true]
      simp [klookup]
    | false =>
      simp only [List.map_cons, hkv, Bool.false_eq_true, if_false]
      simp only [klookup, hkv, Bool.false_eq_true, if_false]
      apply ih
      simp only [List.any_cons, hkv, Bool.false_or] at hmem
      exact hmem

theorem klookup_append_new (acc : List ((Scalar × Scalar) × Node))
    (k' k : Scalar × Scalar) (p : Node)
    (hnone : acc.any (fun kv => kv.1 == k') = false) :
    klookup k (acc ++ [(k', p)]) = if k' = k then some p else klookup k acc := by
  induction acc with
  | nil =>
    simp only [List.nil_append, klookup]
    by_cases h : k' = k
    · simp [h]
    · simp [beq_eq_false_iff_ne.mpr h, h]
  | cons kv rest ih =>
    simp only [List.any_cons, Bool.or_eq_false_iff] at hnone
    simp only [List.cons_append, klookup]
    by_cases hkv : (kv.1 == k) = true
    · have : ¬ k' = k := by
        intro hh
        subst hh
        rw [eq_of_beq hkv] at hnone
        simp at hnone
      simp [hkv, this]
    · simp only [hkv, Bool.false_eq_true, if_false]
      have := ih hnone.2
      simp only [List.append_eq] at this ⊢
      rw [this]

theorem getLast?_cons_ne_none {α : Type} (a : α) (l : List α) :
    (a :: l).getLast? ≠ none := by
  induction l generalizing a with
  | nil => simp [List.getLast?]
  | cons b u ih =>
    rw [List.getLast?_cons_cons]
    exact ih b

theorem lastWithKey_cons (k : Scalar × Scalar) (p : Node) (rest : List Node) :
    lastWithKey k (p :: rest) =
      if paramKey p == some k then (lastWithKey k rest).or (some p)
      else lastWithKey k rest := by
  unfold lastWithKey
  rw [List.filter_cons]
  by_cases hc : (paramKey p == some k) = true
  · simp only [hc, if_true]
    cases hfr : (rest.filter (fun p => paramKey p == some k)) with
    | nil => simp [List.getLast?, Option.or]
    | cons a t =>
      rw [List.getLast?_cons_cons]
      cases hgl : (a :: t).getLast? with
      | none =>
        exfalso
        exact getLast?_cons_ne_none a t hgl
      | some q => simp [Option.or]
  · simp [hc]

theorem klookup_upsertK (acc : List ((Scalar × Scalar) × Node))
    (k' k : Scalar × Scalar) (p : Node) :
    klookup k (upsertK acc k' p) = if k' = k then some p else klookup k acc := by
  unfold upsertK
  cases hany : acc.any (fun kv => kv.1 == k') with
  | true =>
    simp only [hany, if_true]
    by_cases hk : k' = k
    · subst hk
      rw [klookup_map_update_eq acc k' p hany]
      simp
    · rw [klookup_map_update_ne acc k' k p hk]
      simp [hk]
  | false =>
    simp only [hany, Bool.false_eq_true, if_false]
    exact klookup_append_new acc k' k p hany

theorem klookup_foldl (l : List Node) : ∀ (acc : List ((Scalar × Scalar) × Node))
    (k : Scalar × Scalar),
    klookup k (l.foldl pureMergeStep acc) =
      match lastWithKey k l with
      | some q => some q
      | none => klookup k acc := by
  induction l with
  | nil =>
    intro acc k
    rfl
  | cons p rest ih =>
    intro acc k
    rw [List.foldl_cons, ih, lastWithKey_cons]
    by_cases hc : (paramKey p == some k) = true
    · simp only [hc, if_true]
      cases hlw : lastWithKey k rest with
      | some q => simp [Option.or]
      | none =>
        simp only [Option.or]
        have hkey : paramKey p = some k := eq_of_beq hc
        simp only [pureMergeStep, hkey]
        rw [klookup_upsertK]
        simp
    · simp only [hc, Bool.false_eq_true, if_false]
      cases hlw : lastWithKey k rest with
      | some q => rfl
      | none =>
        cases hk : paramKey p with
        | none => simp [pureMergeStep, hk]
        | some k2 =>
          have hne : k2 ≠ k := by
            intro hh
            rw [hk, hh] at hc
            simp at hc
          simp only [pureMergeStep, hk]
          rw [klookup_upsertK]
          simp [hne]

theorem keys_upsertK (acc : List ((Scalar × Scalar) × Node)) (k : Scalar × Scalar)
    (p : Node) :
    (upsertK acc k p).map Prod.fst =
      if acc.any (fun kv => kv.1 == k) then acc.map Prod.fst
      else acc.map Prod.fst ++ [k] := by
  unfold upsertK
  by_cases hany : (acc.any fun kv => kv.1 == k) = true
  · simp only [hany, if_true, List.map_map]
    apply List.map_congr_left
    intro kv _
    by_cases hkv : kv.1 = k
    · simp [hkv]
    · simp [hkv]
  · simp [hany]

theorem keys_foldl (l : List Node) : ∀ (acc : List ((Scalar × Scalar) × Node)),
    (l.foldl pureMergeStep acc).map Prod.fst =
      acc.map Prod.fst ++ newKeys (acc.map Prod.fst) (l.filterMap paramKey) := by
  induction l with
  | nil =>
    intro acc
    simp [newKeys]
  | cons p rest ih =>
    intro acc
    rw [List.foldl_cons, ih]
    cases hk : paramKey p with
    | none =>
      simp [List.filterMap_cons, hk, pureMergeStep]
    | some k =>
      simp only [List.filterMap_cons, hk, pureMergeStep]
      have hanys : ((acc.map Prod.fst).any fun x => x == k) = acc.any (fun kv => kv.1 == k) := by
        induction acc with
        | nil => rfl
        | cons a t iha => simp only [List.map_cons, List.any_cons, iha]
      cases hany : (acc.any fun kv => kv.1 == k) with
      | true =>
        rw [keys_upsertK, hany]
        simp only [if_true, newKeys, hanys, hany]
      | false =>
        rw [keys_upsertK, hany]
        simp only [Bool.false_eq_true, if_false, newKeys, hanys, hany]
        rw [List.append_assoc]
        rfl

theorem mergeStep_plain (root : Node) (acc : List ((Scalar × Scalar) × Node)) (p : Node)
    (h : plainParam p = true) :
    mergeStep root acc p = .ok (pureMergeStep acc p) := by
  cases p with
  | map kvs =>
    simp only [plainParam, Bool.and_eq_true, Option.isNone_iff_eq_none,
      Option.isSome_iff_exists] at h
    obtain ⟨h1, k, hk⟩ := h
    have hres : resolve_ref (.map kvs) root = .ok (.map kvs) := by
      simp [resolve_ref, h1]
    simp only [mergeStep, hres, bind, Except.bind, pyGetD]
    simp only [pureMergeStep, hk]
    simp only [paramKey] at hk
    by_cases hcond : (!truthy ((alookupN "in" kvs).getD .null)
        || !truthy ((alookupN "name" kvs).getD .null)) = true
    · rw [if_pos hcond] at hk
      cases hk
    · rw [if_neg hcond] at hk
      simp only [hcond, Bool.false_eq_true, if_false]
      cases hsi : toScalar ((alookupN "in" kvs).getD .null) with
      | none => rw [hsi] at hk; cases hk
      | some ki =>
        cases hsn : toScalar ((alookupN "name" kvs).getD .null) with
        | none => rw [hsi, hsn] at hk; cases hk
        | some kn =>
          rw [hsi, hsn] at hk
          cases hk
          rfl
  | null => simp [plainParam] at h
  | bool b => simp [plainParam] at h
  | int i => simp [plainParam] at h
  | str s => simp [plainParam] at h
  | list l => simp [plainParam] at h

theorem mergeOpParams_plain (root : Node) (l : List Node)
    (h : ∀ p ∈ l, plainParam p = true) :
    mergeOpParams root l = .ok (pureMerge l) := by
  unfold mergeOpParams pureMerge
  suffices hgen : ∀ acc, l.foldlM (mergeStep root) acc = .ok (l.foldl pureMergeStep acc) by
    exact hgen []
  induction l with
  | nil => intro acc; rfl
  | cons p rest ih =>
    intro acc
    rw [List.foldlM_cons, mergeStep_plain root acc p (h p (by simp))]
    simp only [bind, Except.bind]
    rw [List.foldl_cons]
    exact ih (fun q hq => h q (by simp [hq])) _

/-- C5: merging path-level and operation-level parameter declarations: when
both levels declare the same `(in, name)` key, the merged dictionary holds
the operation-level node (so its description and required flag win — in fact
the *last* operation-level declaration with that key), and the merged list's
keys appear in order of first appearance in the concatenated declaration
list. -/
theorem param_merge_op_wins_first_order (root : Node) (pathLevel opLevel : List Node)
    (h : ∀ p ∈ pathLevel ++ opLevel, plainParam p = true) :
    ∃ merged, mergeOpParams root (pathLevel ++ opLevel) = .ok merged
      ∧ merged.map Prod.fst = firstOccKeys ((pathLevel ++ opLevel).filterMap paramKey)
      ∧ ∀ k q, lastWithKey k opLevel = some q → klookup k merged = some q := by
  refine ⟨pureMerge (pathLevel ++ opLevel), mergeOpParams_plain root _ h, ?_, ?_⟩
  · have hkeys := keys_foldl (pathLevel ++ opLevel) []
    simpa [pureMerge, firstOccKeys] using hkeys
  · intro k q hlast
    have hfold := klookup_foldl (pathLevel ++ opLevel) [] k
    have hall : lastWithKey k (pathLevel ++ opLevel) = some q := by
      unfold lastWithKey at hlast ⊢
      rw [List.filter_append]
      have hne : opLevel.filter (fun p => paramKey p == some k) ≠ [] := by
        intro hnil
        rw [hnil] at hlast
        cases hlast
      rw [List.getLast?_append_of_ne_nil _ hne]
      exact hlast
    rw [hall] at hfold
    exact hfold

/-- Witness for C5: a path-level and operation-level declaration sharing the
key `(query, q)`; the merged entry is the operation-level node. -/
theorem param_merge_op_wins_first_order_witness :
    ∃ merged, mergeOpParams Node.null
        ([Node.map [("in", Node.str "query"), ("name", Node.str "q"),
                    ("description", Node.str "path level")]] ++
         [Node.map [("in", Node.str "query"), ("name", Node.str "q"),
                    ("description", Node.str "op level"), ("required", Node.bool true)]])
        = .ok merged
      ∧ klookup (Scalar.str "query", Scalar.str "q") merged
          = some (Node.map [("in", Node.str "query"), ("name", Node.str "q"),
                            ("description", Node.str "op level"), ("required", Node.bool true)]) := by
  obtain ⟨m, hm, _, hlast⟩ := param_merge_op_wins_first_order Node.null
    [Node.map [("in", Node.str "query"), ("name", Node.str "q"),
               ("description", Node.str "path level")]]
    [Node.map [("in", Node.str "query"), ("name", Node.str "q"),
               ("description", Node.str "op level"), ("required", Node.bool true)]]
    (by decide)
  exact ⟨m, hm, hlast _ _ (by rfl)⟩

/-! ### C6: an array property with binary items is a file array -/

/-- C6: in `parse_request_body_fields`, an array-typed property whose items
schema has `format: binary` is classified with `is_file = true` and
`is_array_of_files = true`, even though the property's own `format` key is
absent. -/
theorem array_items_binary_marks_file_array (root req_node : Node) (name : String)
    (kvs ikvs : List (String × Node))
    (hnoref : alookupN "$ref" kvs = none)
    (htype : alookupN "type" kvs = some (.str "array"))
    (hfmt : alookupN "format" kvs = none)
    (hitems : alookupN "items" kvs = some (.map ikvs))
    (hinoref : alookupN "$ref" ikvs = none)
    (hifmt : alookupN "format" ikvs = some (.str "binary")) :
    ∀ f, classifyProp root req_node name (.map kvs) = .ok f →
      f.is_file = true ∧ f.is_array_of_files = true := by
  intro f hf
  have hres : resolve_ref (.map kvs) root = .ok (.map kvs) := by
    simp [resolve_ref, hnoref]
  have hires : resolve_ref (.map ikvs) root = .ok (.map ikvs) := by
    simp [resolve_ref, hinoref]
  simp only [classifyProp, hres, bind, Except.bind, pyGetD, htype, hfmt, hitems, hifmt,
    hires, Option.getD_some, Option.getD_none, nodeEqStr, beq_self_eq_true, if_true,
    pure, Except.pure] at hf
  cases hreq : pyInNode name req_node with
  | error e => rw [hreq] at hf; cases hf
  | ok b =>
    rw [hreq] at hf
    simp only [Except.ok.injEq] at hf
    subst hf
    exact ⟨by simp, rfl⟩

/-- Witness for C6: a concrete `attachments` property of array type whose
items are binary and whose own `format` is unset. -/
theorem array_items_binary_marks_file_array_witness :
    classifyProp Node.null (Node.list [Node.str "attachments"]) "attachments"
      (Node.map [("type", Node.str "array"),
                 ("items", Node.map [("type", Node.str "string"), ("format", Node.str "binary")])])
      = .ok { py_name := "attachments", openapi_name := "attachments", is_file := true,
              descr := "", required := true, is_array_of_files := true }
    ∧ (true = true ∧ true = true) := by
  refine ⟨rfl, ?_⟩
  exact array_items_binary_marks_file_array Node.null (Node.list [Node.str "attachments"])
    "attachments"
    [("type", Node.str "array"),
     ("items", Node.map [("type", Node.str "string"), ("format", Node.str "binary")])]
    [("type", Node.str "string"), ("format", Node.str "binary")]
    rfl rfl rfl rfl rfl rfl
    { py_name := "attachments", openapi_name := "attachments", is_file := true,
      descr := "", required := true, is_array_of_files := true }
    rfl

/-! ### C2: path parameters follow the declared required flag -/

theorem docSigPathQuery_snd (tag : String) (ps : List ParamSpec)
    (acc : List String × List String) :
    (docSigPathQuery tag ps acc).2 =
      acc.2 ++ ps.map (fun p => if p.required then p.py_name else p.py_name ++ "=None") := by
  unfold docSigPathQuery
  induction ps generalizing acc with
  | nil => simp
  | cons p rest ih =>
    rw [List.foldl_cons, ih]
    simp [List.append_assoc]

theorem docSigJsonBody_snd (fs : List FieldSpec) (acc : List String × List String) :
    (docSigJsonBody fs acc).2 =
      acc.2 ++ fs.map (fun f => if f.required then f.py_name else f.py_name ++ "=None") := by
  unfold docSigJsonBody
  induction fs generalizing acc with
  | nil => simp
  | cons f rest ih =>
    rw [List.foldl_cons, ih]
    simp [List.append_assoc]

theorem docSigMultipartBody_snd (fs : List FieldSpec) (acc : List String × List String) :
    (docSigMultipartBody fs acc).2 =
      acc.2 ++ fs.map (fun f => if f.required then f.py_name else f.py_name ++ "=None") := by
  unfold docSigMultipartBody
  induction fs generalizing acc with
  | nil => simp
  | cons f rest ih =>
    rw [List.foldl_cons, ih]
    simp [List.append_assoc]

theorem buildDocAndSig_snd (method path : String) (pp qp : List ParamSpec)
    (bf : List FieldSpec) (ct : Option String) :
    (buildDocAndSig method path pp qp bf ct).2 =
      ["self"]
      ++ pp.map (fun p => if p.required then p.py_name else p.py_name ++ "=None")
      ++ qp.map (fun p => if p.required then p.py_name else p.py_name ++ "=None")
      ++ (if !bf.isEmpty && (ct == some "application/json" || ct == some "multipart/form-data")
          then bf.map (fun f => if f.required then f.py_name else f.py_name ++ "=None")
          else []) := by
  unfold buildDocAndSig
  by_cases hbf : bf.isEmpty <;>
    by_cases hjson : (ct == some "application/json") = true <;>
    by_cases hmp : (ct == some "multipart/form-data") = true <;>
    simp [hbf, hjson, hmp, docSigPathQuery_snd, docSigJsonBody_snd, docSigMultipartBody_snd,
      List.append_assoc]

theorem requiredParamChecks_mem_error (args : String → Option Val) (p : ParamSpec) :
    ∀ (l : List ParamSpec), p ∈ l → p.required = true → args p.py_name = none →
    ∃ m, requiredParamChecks l args = .error m := by
  intro l
  induction l with
  | nil => intro hp; cases hp
  | cons q rest ih =>
    intro hp hreq hnone
    by_cases hq : (q.required && (args q.py_name).isNone) = true
    · exact ⟨"Parameter '" ++ q.py_name ++ "' is required.",
        by simp [requiredParamChecks, hq]⟩
    · have hpr : p ∈ rest := by
        rcases List.mem_cons.mp hp with rfl | h
        · exact absurd (by simp [hreq, hnone]) hq
        · exact h
      obtain ⟨m, hm⟩ := ih hpr hreq hnone
      exact ⟨m, by simp [requiredParamChecks, hq, hm]⟩

/-- C2 (corrected): a path parameter is treated as required exactly when its
own declared `required` flag is truthy — with the flag set it appears in the
signature without a default and a missing (None) value raises before any
request is built; with the flag unset it appears with a `=None` default (the
code does not force path parameters to be required). -/
theorem path_param_required_iff_flag (method path : String) (pp qp : List ParamSpec)
    (bf : List FieldSpec) (ct : Option String) (p : ParamSpec) (hp : p ∈ pp) :
    (p.required = true →
      p.py_name ∈ (buildDocAndSig method path pp qp bf ct).2
      ∧ ∀ args, args p.py_name = none →
          ∃ m, runGeneratedCall method path pp qp bf ct args = .error m)
    ∧ (p.required = false →
      p.py_name ++ "=None" ∈ (buildDocAndSig method path pp qp bf ct).2) := by
  constructor
  · intro hreq
    constructor
    · rw [buildDocAndSig_snd]
      have hmm : p.py_name ∈ pp.map
          (fun p => if p.required then p.py_name else p.py_name ++ "=None") :=
        List.mem_map.mpr ⟨p, hp, by simp [hreq]⟩
      simp [List.mem_append, hmm]
    · intro args hnone
      obtain ⟨m, hm⟩ := requiredParamChecks_mem_error args p (pp ++ qp)
        (List.mem_append.mpr (Or.inl hp)) hreq hnone
      refine ⟨m, ?_⟩
      simp only [runGeneratedCall, hm, bind, Except.bind]
  · intro hreq
    rw [buildDocAndSig_snd]
    have hmm : p.py_name ++ "=None" ∈ pp.map
        (fun p => if p.required then p.py_name else p.py_name ++ "=None") :=
      List.mem_map.mpr ⟨p, hp, by simp [hreq]⟩
    simp [List.mem_append, hmm]

/-- Witness for C2: a required path parameter `cid` appears bare in the
signature, and calling with it missing raises. -/
theorem path_param_required_iff_flag_witness :
    "cid" ∈ (buildDocAndSig "get" "/c"
        [{ py_name := "cid", openapi_name := "cid", descr := "", required := true }]
        [] [] none).2
    ∧ ∃ m, runGeneratedCall "get" "/c"
        [{ py_name := "cid", openapi_name := "cid", descr := "", required := true }]
        [] [] none (fun _ => none) = .error m := by
  have h := (path_param_required_iff_flag "get" "/c"
    [{ py_name := "cid", openapi_name := "cid", descr := "", required := true }]
    [] [] none
    { py_name := "cid", openapi_name := "cid", descr := "", required := true }
    (by simp)).1 rfl
  exact ⟨h.1, h.2 (fun _ => none) rfl⟩

/-- C2 counterexample: a path parameter declared without `required: true`
gets a `=None` default in the signature and a call without it succeeds (no
rejection), contradicting "path parameters are implicitly required". -/
theorem optional_path_param_counterexample :
    (buildDocAndSig "get" ("/x/" ++ lbraceS ++ "id" ++ rbraceS)
        [{ py_name := "id", openapi_name := "id", descr := "", required := false }]
        [] [] none).2 = ["self", "id=None"]
    ∧ runGeneratedCall "get" ("/x/" ++ lbraceS ++ "id" ++ rbraceS)
        [{ py_name := "id", openapi_name := "id", descr := "", required := false }]
        [] [] none (fun _ => none)
      = .ok { method := "get", endpoint := "/x/None", params := none,
              data := none, files := none } := ⟨rfl, rfl⟩

/-! ### C3: where required-ness is enforced at call time -/

theorem requiredParamChecks_ok (args : String → Option Val) :
    ∀ (l : List ParamSpec), (∀ q ∈ l, q.required = true → args q.py_name ≠ none) →
    requiredParamChecks l args = .ok () := by
  intro l
  induction l with
  | nil => intro _; rfl
  | cons q rest ih =>
    intro h
    have hq : (q.required && (args q.py_name).isNone) = false := by
      cases hr : q.required with
      | false => simp
      | true =>
        have hne := h q (by simp) hr
        cases ha : args q.py_name with
        | none => exact absurd ha hne
        | some v => simp [ha]
    simp only [requiredParamChecks, hq, Bool.false_eq_true, if_false]
    exact ih (fun r hr => h r (by simp [hr]))

theorem requiredFieldChecks_ok (args : String → Option Val) :
    ∀ (l : List FieldSpec), (∀ g ∈ l, g.required = true → args g.py_name ≠ none) →
    requiredFieldChecks l args = .ok () := by
  intro l
  induction l with
  | nil => intro _; rfl
  | cons g rest ih =>
    intro h
    have hg : (g.required && (args g.py_name).isNone) = false := by
      cases hr : g.required with
      | false => simp
      | true =>
        have hne := h g (by simp) hr
        cases ha : args g.py_name with
        | none => exact absurd ha hne
        | some v => simp [ha]
    simp only [requiredFieldChecks, hg, Bool.false_eq_true, if_false]
    exact ih (fun r hr => h r (by simp [hr]))

theorem requiredParamChecks_first_missing (args : String → Option Val) (p : ParamSpec) :
    ∀ (l : List ParamSpec), p ∈ l → p.required = true → args p.py_name = none →
    (∀ q ∈ l, q.required = true → q.py_name ≠ p.py_name → args q.py_name ≠ none) →
    requiredParamChecks l args = .error ("Parameter '" ++ p.py_name ++ "' is required.") := by
  intro l
  induction l with
  | nil => intro hp; cases hp
  | cons q rest ih =>
    intro hp hreq hnone hothers
    by_cases hq : (q.required && (args q.py_name).isNone) = true
    · have hq' := hq
      rw [Bool.and_eq_true] at hq'
      obtain ⟨hq1, hq2⟩ := hq'
      have heq : q.py_name = p.py_name := by
        by_contra hne
        exact (hothers q (by simp) hq1 hne) (Option.isNone_iff_eq_none.mp hq2)
      simp only [requiredParamChecks]
      rw [if_pos hq, heq]
    · have hpr : p ∈ rest := by
        rcases List.mem_cons.mp hp with rfl | h
        · exact absurd (by simp [hreq, hnone]) hq
        · exact h
      have := ih hpr hreq hnone (fun r hr => hothers r (by simp [hr]))
      simpa [requiredParamChecks, hq] using this

theorem requiredFieldChecks_first_missing (args : String → Option Val) (f : FieldSpec) :
    ∀ (l : List FieldSpec), f ∈ l → f.required = true → args f.py_name = none →
    (∀ g ∈ l, g.required = true → g.py_name ≠ f.py_name → args g.py_name ≠ none) →
    requiredFieldChecks l args = .error ("Body field '" ++ f.py_name ++ "' is required.") := by
  intro l
  induction l with
  | nil => intro hp; cases hp
  | cons g rest ih =>
    intro hp hreq hnone hothers
    by_cases hg : (g.required && (args g.py_name).isNone) = true
    · have hg' := hg
      rw [Bool.and_eq_true] at hg'
      obtain ⟨hg1, hg2⟩ := hg'
      have heq : g.py_name = f.py_name := by
        by_contra hne
        exact (hothers g (by simp) hg1 hne) (Option.isNone_iff_eq_none.mp hg2)
      simp only [requiredFieldChecks]
      rw [if_pos hg, heq]
    · have hpr : f ∈ rest := by
        rcases List.mem_cons.mp hp with rfl | h
        · exact absurd (by simp [hreq, hnone]) hg
        · exact h
      have := ih hpr hreq hnone (fun r hr => hothers r (by simp [hr]))
      simpa [requiredFieldChecks, hg] using this

/-- C3 (corrected): the call-time required checks cover (a) every required
path/query parameter, for every HTTP method — omitting exactly that argument
raises `ValueError("Parameter '<name>' is required.")` before any request is
assembled — and (b) required body fields, but only for POST/PUT/PATCH
operations whose selected content type is `application/json` or
`multipart/form-data`, where omission raises
`ValueError("Body field '<name>' is required.")`.  Required body fields of
other operations are not enforced (and for other content types do not even
appear in the signature). -/
theorem required_checks_scope :
    (∀ (method path : String) (pp qp : List ParamSpec) (bf : List FieldSpec)
        (ct : Option String) (args : String → Option Val) (p : ParamSpec),
        p ∈ pp ++ qp → p.required = true → args p.py_name = none →
        (∀ q ∈ pp ++ qp, q.required = true → q.py_name ≠ p.py_name → args q.py_name ≠ none) →
        runGeneratedCall method path pp qp bf ct args
          = .error ("Parameter '" ++ p.py_name ++ "' is required."))
    ∧ (∀ (method path : String) (pp qp : List ParamSpec) (bf : List FieldSpec)
        (ct : Option String) (args : String → Option Val) (f : FieldSpec) (e : String),
        postPutPatch method = true →
        (ct = some "application/json" ∨ ct = some "multipart/form-data") →
        f ∈ bf → f.required = true → args f.py_name = none →
        (∀ q ∈ pp ++ qp, q.required = true → args q.py_name ≠ none) →
        (∀ g ∈ bf, g.required = true → g.py_name ≠ f.py_name → args g.py_name ≠ none) →
        formatFString (build_path_fstring path (pp.map fun p => (p.openapi_name, p.py_name)))
          (argEnv (declaredNames pp qp bf ct) args) = .ok e →
        runGeneratedCall method path pp qp bf ct args
          = .error ("Body field '" ++ f.py_name ++ "' is required.")) := by
  constructor
  · intro method path pp qp bf ct args p hp hreq hnone hothers
    have hm := requiredParamChecks_first_missing args p (pp ++ qp) hp hreq hnone hothers
    simp only [runGeneratedCall, hm, bind, Except.bind]
  · intro method path pp qp bf ct args f e hmeth hct hf hreq hnone hq hothers he
    have h1 : requiredParamChecks (pp ++ qp) args = .ok () :=
      requiredParamChecks_ok args (pp ++ qp) hq
    have hbfne : bf.isEmpty = false := by
      cases bf with
      | nil => cases hf
      | cons a t => rfl
    have hact : bodyChecksActive method bf ct = true := by
      rcases hct with rfl | rfl <;> simp [bodyChecksActive, hmeth, hbfne]
    have hferr := requiredFieldChecks_first_missing args f bf hf hreq hnone hothers
    simp only [runGeneratedCall, h1, he, bind, Except.bind, hact, if_true, hferr]

/-- Witness for C3: both clauses at concrete operations — a required query
parameter on GET, and a required JSON body field on POST. -/
theorem required_checks_scope_witness :
    runGeneratedCall "get" "/s" []
        [{ py_name := "q", openapi_name := "q", descr := "", required := true }]
        [] none (fun _ => none)
      = .error "Parameter 'q' is required."
    ∧ runGeneratedCall "post" "/s" [] []
        [{ py_name := "body1", openapi_name := "body1", is_file := false, descr := "",
           required := true, is_array_of_files := false }]
        (some "application/json") (fun _ => none)
      = .error "Body field 'body1' is required." := by
  constructor
  · have hothers : ∀ q ∈ ([] : List ParamSpec) ++
        [{ py_name := "q", openapi_name := "q", descr := "", required := true }],
        q.required = true → q.py_name ≠ "q" →
        (fun _ => none : String → Option Val) q.py_name ≠ none := by
      intro q hq h1 h2
      simp only [List.nil_append, List.mem_singleton] at hq
      subst hq
      exact absurd rfl h2
    exact required_checks_scope.1 "get" "/s" []
      [{ py_name := "q", openapi_name := "q", descr := "", required := true }] [] none
      (fun _ => none)
      { py_name := "q", openapi_name := "q", descr := "", required := true }
      (by simp) rfl rfl hothers
  · have hothers : ∀ g ∈
        ([{ py_name := "body1", openapi_name := "body1", is_file := false, descr := "",
            required := true, is_array_of_files := false }] : List FieldSpec),
        g.required = true → g.py_name ≠ "body1" →
        (fun _ => none : String → Option Val) g.py_name ≠ none := by
      intro g hg h1 h2
      simp only [List.mem_singleton] at hg
      subst hg
      exact absurd rfl h2
    have hq : ∀ q ∈ ([] : List ParamSpec) ++ ([] : List ParamSpec),
        q.required = true → (fun _ => none : String → Option Val) q.py_name ≠ none := by
      intro q hq
      cases hq
    exact required_checks_scope.2 "post" "/s" [] []
      [{ py_name := "body1", openapi_name := "body1", is_file := false, descr := "",
         required := true, is_array_of_files := false }]
      (some "application/json") (fun _ => none)
      { py_name := "body1", openapi_name := "body1", is_file := false, descr := "",
        required := true, is_array_of_files := false }
      "/s" rfl (Or.inl rfl) (by simp) rfl rfl hq hothers rfl

/-- C3 counterexample: a POST body with content type `text/plain` and a
required field `q` — the field does not appear in the generated signature at
all, and invoking the callable without it succeeds (the request is issued
with no validation error), contradicting "for every operation regardless of
HTTP method or content type". -/
theorem text_body_required_field_unchecked :
    (buildDocAndSig "post" "/x" [] []
        [{ py_name := "q", openapi_name := "q", is_file := false, descr := "",
           required := true, is_array_of_files := false }] (some "text/plain")).2 = ["self"]
    ∧ runGeneratedCall "post" "/x" [] []
        [{ py_name := "q", openapi_name := "q", is_file := false, descr := "",
           required := true, is_array_of_files := false }] (some "text/plain") (fun _ => none)
      = .ok { method := "post", endpoint := "/x", params := none,
              data := none, files := none } := ⟨rfl, rfl⟩

/-! ### C4: JSON bodies carry binary fields like any other field -/

theorem dictInsert_self_mem {α : Type} (d : List (String × α)) (k : String) (v : α) :
    (k, v) ∈ dictInsert d k v := by
  unfold dictInsert
  by_cases h : (d.any fun kv => kv.1 == k) = true
  · simp only [h, if_true]
    obtain ⟨kv, hkv, hbeq⟩ := List.any_eq_true.mp h
    refine List.mem_map.mpr ⟨kv, hkv, ?_⟩
    simp [hbeq]
  · simp [h]

theorem dictInsert_mem_of_ne {α : Type} (d : List (String × α)) (k' k : String)
    (v' v : α) (hne : k ≠ k') (hm : (k, v) ∈ d) :
    (k, v) ∈ dictInsert d k' v' := by
  unfold dictInsert
  split
  · refine List.mem_map.mpr ⟨(k, v), hm, ?_⟩
    simp [beq_eq_false_iff_ne.mpr hne]
  · exact List.mem_append.mpr (Or.inl hm)

theorem jsonStep_foldl_preserve (args : String → Option Val) :
    ∀ (l : List FieldSpec) (d : List (String × Val)) (k : String) (v : Val),
    (k, v) ∈ d → (∀ g ∈ l, g.openapi_name ≠ k) →
    (k, v) ∈ l.foldl (jsonStep args) d := by
  intro l
  induction l with
  | nil => intro d k v hm _; exact hm
  | cons g rest ih =>
    intro d k v hm hno
    rw [List.foldl_cons]
    refine ih _ k v ?_ (fun r hr => hno r (by simp [hr]))
    unfold jsonStep
    cases args g.py_name with
    | none => exact hm
    | some w =>
      exact dictInsert_mem_of_ne d g.openapi_name k w v
        (fun hh => hno g (by simp) hh.symm) hm

theorem jsonDataBundle_mem (bf : List FieldSpec) (args : String → Option Val)
    (f : FieldSpec) (v : Val) (hf : f ∈ bf) (hv : args f.py_name = some v)
    (hnd : (bf.map (fun g => g.openapi_name)).Nodup) :
    (f.openapi_name, v) ∈ jsonDataBundle bf args := by
  obtain ⟨l1, l2, rfl⟩ := List.append_of_mem hf
  unfold jsonDataBundle
  rw [List.foldl_append, List.foldl_cons]
  have hstep : jsonStep args (List.foldl (jsonStep args) [] l1) f
      = dictInsert (List.foldl (jsonStep args) [] l1) f.openapi_name v := by
    unfold jsonStep
    rw [hv]
  rw [hstep]
  have hno : ∀ g ∈ l2, g.openapi_name ≠ f.openapi_name := by
    rw [List.map_append, List.map_cons] at hnd
    have h2 := (List.nodup_append.mp hnd).2.1
    have h3 := (List.nodup_cons.mp h2).1
    intro g hg hh
    exact h3 (hh ▸ List.mem_map.mpr ⟨g, hg, rfl⟩)
  exact jsonStep_foldl_preserve args l2 _ f.openapi_name v
    (dictInsert_self_mem _ _ _) hno

theorem runGeneratedCall_ok (method path : String) (pp qp : List ParamSpec)
    (bf : List FieldSpec) (ct : Option String) (args : String → Option Val) (e : String)
    (h1 : requiredParamChecks (pp ++ qp) args = .ok ())
    (he : formatFString (build_path_fstring path (pp.map fun p => (p.openapi_name, p.py_name)))
            (argEnv (declaredNames pp qp bf ct) args) = .ok e)
    (h2 : bodyChecksActive method bf ct = true → requiredFieldChecks bf args = .ok ())
    (h3 : (postPutPatch method && ct == some "multipart/form-data" && bf.isEmpty) = false) :
    runGeneratedCall method path pp qp bf ct args =
      .ok { method := lowerStr method, endpoint := e,
            params := queryParamsBundle qp args,
            data := (buildBody method ct bf args).1,
            files := (buildBody method ct bf args).2 } := by
  unfold runGeneratedCall
  simp only [h1, he, bind, Except.bind]
  cases hact : bodyChecksActive method bf ct with
  | true =>
    simp only [hact, if_true, h2 hact, h3, Bool.false_eq_true, if_false, pure, Except.pure]
  | false =>
    simp only [hact, Bool.false_eq_true, if_false, h3, pure, Except.pure]

/-- C4 (corrected): for a POST/PUT/PATCH operation with content type
`application/json`, *every* supplied body field — including fields with
`format: binary` (`is_file = true`) — is written into the emitted JSON body
mapping under its original name; binary fields are not excluded (the JSON
branch of `build_function_code` ignores `is_file`). -/
theorem json_body_includes_supplied_fields (method path : String)
    (pp qp : List ParamSpec) (bf : List FieldSpec) (args : String → Option Val)
    (f : FieldSpec) (v : Val) (e : String)
    (hm : postPutPatch method = true)
    (hq : ∀ q ∈ pp ++ qp, q.required = true → args q.py_name ≠ none)
    (hb : ∀ g ∈ bf, g.required = true → args g.py_name ≠ none)
    (he : formatFString (build_path_fstring path (pp.map fun p => (p.openapi_name, p.py_name)))
            (argEnv (declaredNames pp qp bf (some "application/json")) args) = .ok e)
    (hf : f ∈ bf) (hv : args f.py_name = some v)
    (hnd : (bf.map (fun g => g.openapi_name)).Nodup) :
    ∃ r, runGeneratedCall method path pp qp bf (some "application/json") args = .ok r
      ∧ r.data = some (jsonDataBundle bf args)
      ∧ (f.openapi_name, v) ∈ jsonDataBundle bf args := by
  have hbfne : bf.isEmpty = false := by
    cases bf with
    | nil => cases hf
    | cons a t => rfl
  have h3 : (postPutPatch method && (some "application/json" : Option String)
      == some "multipart/form-data" && bf.isEmpty) = false := by
    simp [hbfne]
  have hrun := runGeneratedCall_ok method path pp qp bf (some "application/json") args e
    (requiredParamChecks_ok args (pp ++ qp) hq) he
    (fun _ => requiredFieldChecks_ok args bf hb) h3
  refine ⟨_, hrun, ?_, jsonDataBundle_mem bf args f v hf hv hnd⟩
  simp [buildBody, hm, hbfne]

/-- Witness for C4: a POST JSON operation with one binary field `doc`
supplied; it lands in the data mapping. -/
theorem json_body_includes_supplied_fields_witness :
    ∃ r, runGeneratedCall "post" "/x" [] []
        [{ py_name := "doc", openapi_name := "doc", is_file := true, descr := "",
           required := false, is_array_of_files := false }]
        (some "application/json")
        (fun n => if n == "doc" then some (.vfile "payload") else none)
      = .ok r
      ∧ r.data = some (jsonDataBundle
          [{ py_name := "doc", openapi_name := "doc", is_file := true, descr := "",
             required := false, is_array_of_files := false }]
          (fun n => if n == "doc" then some (.vfile "payload") else none))
      ∧ ("doc", Val.vfile "payload") ∈ jsonDataBundle
          [{ py_name := "doc", openapi_name := "doc", is_file := true, descr := "",
             required := false, is_array_of_files := false }]
          (fun n => if n == "doc" then some (.vfile "payload") else none) := by
  refine json_body_includes_supplied_fields "post" "/x" [] []
    [{ py_name := "doc", openapi_name := "doc", is_file := true, descr := "",
       required := false, is_array_of_files := false }]
    (fun n => if n == "doc" then some (.vfile "payload") else none)
    { py_name := "doc", openapi_name := "doc", is_file := true, descr := "",
      required := false, is_array_of_files := false }
    (Val.vfile "payload") "/x" rfl ?_ ?_ rfl (by simp) rfl (by simp)
  · intro q hq
    cases hq
  · intro g hg hr
    simp only [List.mem_singleton] at hg
    subst hg
    cases hr

/-- C4 counterexample: a supplied `format: binary` body field of a JSON
request appears in the emitted JSON body mapping — it is not excluded. -/
theorem json_body_binary_field_counterexample :
    runGeneratedCall "post" "/x" [] []
      [{ py_name := "doc", openapi_name := "doc", is_file := true, descr := "",
         required := false, is_array_of_files := false }]
      (some "application/json")
      (fun n => if n == "doc" then some (.vfile "payload") else none)
    = .ok { method := "post", endpoint := "/x", params := none,
            data := some [("doc", Val.vfile "payload")], files := none } := rfl

/-! ### C7: multipart bundles

First, injectivity of the decimal rendering used by the indexed file keys
`name[0]`, `name[1]`, .... -/

theorem digitChar_inj_lt10 : ∀ m, m < 10 → ∀ n, n < 10 →
    Nat.digitChar m = Nat.digitChar n → m = n := by decide

theorem toDigitsAux_ne_nil (n : Nat) : toDigitsAux n ≠ [] := by
  unfold toDigitsAux
  split
  · simp
  · simp

theorem toDigitsAux_lt (n : Nat) (h : n < 10) : toDigitsAux n = [Nat.digitChar n] := by
  rw [toDigitsAux, dif_pos h]

theorem toDigitsAux_ge (n : Nat) (h : ¬ n < 10) :
    toDigitsAux n = toDigitsAux (n / 10) ++ [Nat.digitChar (n % 10)] := by
  rw [toDigitsAux, dif_neg h]

theorem toDigitsAux_inj : ∀ m n : Nat, toDigitsAux m = toDigitsAux n → m = n := by
  intro m
  induction m using Nat.strong_induction_on with
  | _ m ih =>
    intro n h
    by_cases hm : m < 10 <;> by_cases hn : n < 10
    · rw [toDigitsAux_lt m hm, toDigitsAux_lt n hn] at h
      simp only [List.cons.injEq, and_true] at h
      exact digitChar_inj_lt10 m hm n hn h
    · exfalso
      rw [toDigitsAux_lt m hm, toDigitsAux_ge n hn] at h
      have hl := congrArg List.length h
      have hpos : 0 < (toDigitsAux (n / 10)).length :=
        List.length_pos.mpr (toDigitsAux_ne_nil (n / 10))
      simp only [List.length_singleton, List.length_append] at hl
      omega
    · exfalso
      rw [toDigitsAux_ge m hm, toDigitsAux_lt n hn] at h
      have hl := congrArg List.length h
      have hpos : 0 < (toDigitsAux (m / 10)).length :=
        List.length_pos.mpr (toDigitsAux_ne_nil (m / 10))
      simp only [List.length_singleton, List.length_append] at hl
      omega
    · rw [toDigitsAux_ge m hm, toDigitsAux_ge n hn] at h
      obtain ⟨h1, h2⟩ := List.append_inj' h (by simp)
      have hdiv : m / 10 = n / 10 :=
        ih (m / 10) (Nat.div_lt_self (by omega) (by omega)) (n / 10) h1
      simp only [List.cons.injEq, and_true] at h2
      have hmod : m % 10 = n % 10 :=
        digitChar_inj_lt10 _ (Nat.mod_lt _ (by omega)) _ (Nat.mod_lt _ (by omega)) h2
      omega

theorem toDigitsCore_eq_aux : ∀ (fuel n : Nat) (ds : List Char), n < fuel →
    Nat.toDigitsCore 10 fuel n ds = toDigitsAux n ++ ds := by
  intro fuel
  induction fuel with
  | zero => intro n ds h; omega
  | succ f ih =>
    intro n ds h
    show (if n / 10 = 0 then Nat.digitChar (n % 10) :: ds
          else Nat.toDigitsCore 10 f (n / 10) (Nat.digitChar (n % 10) :: ds))
        = toDigitsAux n ++ ds
    by_cases hdiv : n / 10 = 0
    · have hn10 : n < 10 := by omega
      rw [if_pos hdiv, toDigitsAux_lt n hn10, Nat.mod_eq_of_lt hn10]
      rfl
    · have hn10 : ¬ n < 10 := by
        intro hlt
        exact hdiv (Nat.div_eq_of_lt hlt)
      rw [if_neg hdiv, toDigitsAux_ge n hn10]
      have hfuel : n / 10 < f := by
        have hlt : n / 10 < n := Nat.div_lt_self (by omega) (by omega)
        omega
      rw [ih (n / 10) (Nat.digitChar (n % 10) :: ds) hfuel]
      simp

theorem natRepr_inj (m n : Nat) (h : Nat.repr m = Nat.repr n) : m = n := by
  have hm : Nat.repr m = (Nat.toDigitsCore 10 (m + 1) m []).asString := rfl
  have hn : Nat.repr n = (Nat.toDigitsCore 10 (n + 1) n []).asString := rfl
  rw [hm, hn, toDigitsCore_eq_aux (m + 1) m [] (by omega),
    toDigitsCore_eq_aux (n + 1) n [] (by omega), List.append_nil, List.append_nil] at h
  exact toDigitsAux_inj m n (by
    have := congrArg String.data h
    simpa [List.asString] using this)

theorem str_append_data (s t : String) : (s ++ t).data = s.data ++ t.data := by
  cases s
  cases t
  rfl

theorem indexKey_inj (orig : String) (i j : Nat)
    (h : orig ++ "[" ++ toString i ++ "]" = orig ++ "[" ++ toString j ++ "]") : i = j := by
  have hd := congrArg String.data h
  simp only [str_append_data] at hd
  have h1 := List.append_inj' hd (by rfl)
  have h2 := List.append_cancel_left h1.1
  apply natRepr_inj
  have : (toString i : String).data = (toString j : String).data := h2
  cases hti : (toString i : String)
  cases htj : (toString j : String)
  rw [hti, htj] at this
  simp only at this
  show Nat.repr i = Nat.repr j
  have hti' : Nat.repr i = toString i := rfl
  have htj' : Nat.repr j = toString j := rfl
  rw [hti', htj', hti, htj, this]

theorem dictInsert_keys_cases {α : Type} (d : List (String × α)) (k : String) (v : α) :
    ∀ k', k' ∈ (dictInsert d k v).map Prod.fst → k' ∈ d.map Prod.fst ∨ k' = k := by
  intro k' h
  unfold dictInsert at h
  split at h
  · left
    have hkeys : (d.map (fun kv => if kv.1 == k then (k, v) else kv)).map Prod.fst
        = d.map Prod.fst := by
      rw [List.map_map]
      apply List.map_congr_left
      intro kv _
      by_cases hkv : kv.1 = k
      · simp [hkv]
      · simp [hkv]
    rwa [hkeys] at h
  · rw [List.map_append] at h
    rcases List.mem_append.mp h with h | h
    · exact Or.inl h
    · simp only [List.map_cons, List.map_nil, List.mem_singleton] at h
      exact Or.inr h

theorem explodeFrom_preserve (orig : String) :
    ∀ (vs : List Val) (files : List (String × Val)) (i0 : Nat) (k : String) (w : Val),
    (k, w) ∈ files →
    (∀ j, i0 ≤ j → j < i0 + vs.length → k ≠ orig ++ "[" ++ toString j ++ "]") →
    (k, w) ∈ explodeFrom orig files i0 vs := by
  intro vs
  induction vs with
  | nil =>
    intro files i0 k w hm _
    exact hm
  | cons v rest ih =>
    intro files i0 k w hm hk
    show (k, w) ∈ explodeFrom orig
      (dictInsert files (orig ++ "[" ++ toString i0 ++ "]") v) (i0 + 1) rest
    refine ih _ (i0 + 1) k w ?_ ?_
    · refine dictInsert_mem_of_ne files _ k v w ?_ hm
      exact hk i0 (Nat.le_refl _) (by simp only [List.length_cons]; omega)
    · intro j h1 h2
      refine hk j (by omega) ?_
      simp only [List.length_cons]
      omega

theorem explodeFrom_mem (orig : String) :
    ∀ (vs : List Val) (files : List (String × Val)) (i0 i : Nat) (h : i < vs.length),
    (orig ++ "[" ++ toString (i0 + i) ++ "]", vs.get ⟨i, h⟩)
      ∈ explodeFrom orig files i0 vs := by
  intro vs
  induction vs with
  | nil =>
    intro files i0 i h
    simp at h
  | cons v rest ih =>
    intro files i0 i h
    cases i with
    | zero =>
      show (orig ++ "[" ++ toString (i0 + 0) ++ "]", v) ∈ explodeFrom orig
        (dictInsert files (orig ++ "[" ++ toString i0 ++ "]") v) (i0 + 1) rest
      rw [Nat.add_zero]
      refine explodeFrom_preserve orig rest _ (i0 + 1) _ v (dictInsert_self_mem _ _ _) ?_
      intro j hj1 _ heq
      have := indexKey_inj orig i0 j heq
      omega
    | succ i2 =>
      have h' : i2 < rest.length := by
        simp only [List.length_cons] at h
        omega
      have hrec := ih (dictInsert files (orig ++ "[" ++ toString i0 ++ "]") v) (i0 + 1) i2 h'
      have harith : i0 + (i2 + 1) = (i0 + 1) + i2 := by omega
      rw [harith]
      exact hrec

theorem explodeFrom_keys (orig : String) :
    ∀ (vs : List Val) (files : List (String × Val)) (i0 : Nat) (k : String),
    k ∈ (explodeFrom orig files i0 vs).map Prod.fst →
    k ∈ files.map Prod.fst
      ∨ ∃ j, i0 ≤ j ∧ j < i0 + vs.length ∧ k = orig ++ "[" ++ toString j ++ "]" := by
  intro vs
  induction vs with
  | nil =>
    intro files i0 k h
    exact Or.inl h
  | cons v rest ih =>
    intro files i0 k h
    rcases ih (dictInsert files (orig ++ "[" ++ toString i0 ++ "]") v) (i0 + 1) k h with h1 | h1
    · rcases dictInsert_keys_cases files _ v k h1 with h2 | h2
      · exact Or.inl h2
      · exact Or.inr ⟨i0, Nat.le_refl _, by simp only [List.length_cons]; omega, h2⟩
    · obtain ⟨j, hj1, hj2, hj3⟩ := h1
      exact Or.inr ⟨j, by omega, by simp only [List.length_cons]; omega, hj3⟩

theorem multipartStep_none (args : String → Option Val)
    (acc : List (String × Val) × List (String × Val)) (g : FieldSpec)
    (hag : args g.py_name = none) : multipartStep args acc g = acc := by
  unfold multipartStep
  rw [hag]

theorem multipartStep_some (args : String → Option Val)
    (acc : List (String × Val) × List (String × Val)) (g : FieldSpec) (v : Val)
    (hag : args g.py_name = some v) :
    multipartStep args acc g =
      if g.is_file && !g.is_array_of_files then (dictInsert acc.1 g.openapi_name v, acc.2)
      else if g.is_file && g.is_array_of_files then
        match v with
        | .vlist vs => (explodeFiles acc.1 g.openapi_name vs, acc.2)
        | _ => (dictInsert acc.1 g.openapi_name v, acc.2)
      else (acc.1, dictInsert acc.2 g.openapi_name (.vstr (valStr v))) := by
  unfold multipartStep
  simp only [hag]
  cases v <;> rfl

theorem multipartFileKeys_none (args : String → Option Val) (g : FieldSpec)
    (hag : args g.py_name = none) : multipartFileKeys args g = [] := by
  unfold multipartFileKeys
  rw [hag]

theorem multipartFileKeys_some (args : String → Option Val) (g : FieldSpec) (v : Val)
    (hag : args g.py_name = some v) :
    multipartFileKeys args g =
      if g.is_file && !g.is_array_of_files then [g.openapi_name]
      else if g.is_file && g.is_array_of_files then
        match v with
        | .vlist vs => (List.range vs.length).map
            (fun i => g.openapi_name ++ "[" ++ toString i ++ "]")
        | _ => [g.openapi_name]
      else [] := by
  unfold multipartFileKeys
  simp only [hag]
  cases v <;> rfl

theorem multipartFormKeys_some (args : String → Option Val) (g : FieldSpec) (v : Val)
    (hag : args g.py_name = some v) :
    multipartFormKeys args g = if g.is_file then [] else [g.openapi_name] := by
  unfold multipartFormKeys
  simp only [hag]

theorem multipartStep_files_preserve (args : String → Option Val)
    (acc : List (String × Val) × List (String × Val)) (g : FieldSpec) (k : String) (w : Val)
    (hm : (k, w) ∈ acc.1) (hk : k ∉ multipartFileKeys args g) :
    (k, w) ∈ (multipartStep args acc g).1 := by
  cases hag : args g.py_name with
  | none =>
    rw [multipartStep_none args acc g hag]
    exact hm
  | some v =>
    rw [multipartStep_some args acc g v hag]
    rw [multipartFileKeys_some args g v hag] at hk
    by_cases h1 : (g.is_file && !g.is_array_of_files) = true
    · rw [if_pos h1] at hk ⊢
      exact dictInsert_mem_of_ne _ _ k v w (by simpa using hk) hm
    · rw [if_neg h1] at hk ⊢
      by_cases h2 : (g.is_file && g.is_array_of_files) = true
      · rw [if_pos h2] at hk ⊢
        cases v with
        | vlist vs =>
          refine explodeFrom_preserve g.openapi_name vs acc.1 0 k w hm ?_
          intro j _ hj2 heq
          refine hk ?_
          exact List.mem_map.mpr ⟨j, List.mem_range.mpr (by omega), heq.symm⟩
        | vstr s => exact dictInsert_mem_of_ne _ _ k _ w (by simpa using hk) hm
        | vint i => exact dictInsert_mem_of_ne _ _ k _ w (by simpa using hk) hm
        | vfile t => exact dictInsert_mem_of_ne _ _ k _ w (by simpa using hk) hm
      · rw [if_neg h2]
        exact hm

theorem multipart_foldl_files_preserve (args : String → Option Val) :
    ∀ (l : List FieldSpec) (acc : List (String × Val) × List (String × Val))
      (k : String) (w : Val),
    (k, w) ∈ acc.1 → (∀ g ∈ l, k ∉ multipartFileKeys args g) →
    (k, w) ∈ (l.foldl (multipartStep args) acc).1 := by
  intro l
  induction l with
  | nil =>
    intro acc k w hm _
    exact hm
  | cons g rest ih =>
    intro acc k w hm hk
    rw [List.foldl_cons]
    exact ih _ k w (multipartStep_files_preserve args acc g k w hm (hk g (by simp)))
      (fun r hr => hk r (by simp [hr]))

theorem multipartStep_files_keys (args : String → Option Val)
    (acc : List (String × Val) × List (String × Val)) (g : FieldSpec) (k : String)
    (h : k ∈ (multipartStep args acc g).1.map Prod.fst) :
    k ∈ acc.1.map Prod.fst ∨ k ∈ multipartFileKeys args g := by
  cases hag : args g.py_name with
  | none =>
    rw [multipartStep_none args acc g hag] at h
    exact Or.inl h
  | some v =>
    rw [multipartStep_some args acc g v hag] at h
    rw [multipartFileKeys_some args g v hag]
    by_cases h1 : (g.is_file && !g.is_array_of_files) = true
    · rw [if_pos h1] at h ⊢
      rcases dictInsert_keys_cases acc.1 _ v k h with h2 | h2
      · exact Or.inl h2
      · exact Or.inr (by simp [h2])
    · rw [if_neg h1] at h ⊢
      by_cases h2 : (g.is_file && g.is_array_of_files) = true
      · rw [if_pos h2] at h ⊢
        cases v with
        | vlist vs =>
          rcases explodeFrom_keys g.openapi_name vs acc.1 0 k h with h3 | h3
          · exact Or.inl h3
          · obtain ⟨j, _, hj2, hj3⟩ := h3
            exact Or.inr (List.mem_map.mpr ⟨j, List.mem_range.mpr (by omega), hj3.symm⟩)
        | vstr s =>
          rcases dictInsert_keys_cases acc.1 _ _ k h with h3 | h3
          · exact Or.inl h3
          · exact Or.inr (by simp [h3])
        | vint i =>
          rcases dictInsert_keys_cases acc.1 _ _ k h with h3 | h3
          · exact Or.inl h3
          · exact Or.inr (by simp [h3])
        | vfile t =>
          rcases dictInsert_keys_cases acc.1 _ _ k h with h3 | h3
          · exact Or.inl h3
          · exact Or.inr (by simp [h3])
      · rw [if_neg h2] at h
        exact Or.inl h

theorem multipartStep_form_keys (args : String → Option Val)
    (acc : List (String × Val) × List (String × Val)) (g : FieldSpec) (k : String)
    (h : k ∈ (multipartStep args acc g).2.map Prod.fst) :
    k ∈ acc.2.map Prod.fst ∨ k ∈ multipartFormKeys args g := by
  cases hag : args g.py_name with
  | none =>
    rw [multipartStep_none args acc g hag] at h
    exact Or.inl h
  | some v =>
    rw [multipartStep_some args acc g v hag] at h
    rw [multipartFormKeys_some args g v hag]
    by_cases h1 : (g.is_file && !g.is_array_of_files) = true
    · rw [if_pos h1] at h
      have hf : g.is_file = true := (Bool.and_eq_true _ _ ▸ h1).1
      rw [if_pos hf]
      exact Or.inl h
    · rw [if_neg h1] at h
      by_cases h2 : (g.is_file && g.is_array_of_files) = true
      · rw [if_pos h2] at h
        have hf : g.is_file = true := (Bool.and_eq_true _ _ ▸ h2).1
        rw [if_pos hf]
        cases v <;> exact Or.inl h
      · rw [if_neg h2] at h
        have hf : g.is_file = false := by
          cases hgf : g.is_file
          · rfl
          · exfalso
            cases hga : g.is_array_of_files
            · exact absurd (by simp [hgf, hga]) h1
            · exact absurd (by simp [hgf, hga]) h2
        rw [if_neg (by simp [hf])]
        rcases dictInsert_keys_cases acc.2 _ _ k h with h3 | h3
        · exact Or.inl h3
        · exact Or.inr (by simp [h3])

theorem multipart_foldl_files_keys (args : String → Option Val) :
    ∀ (l : List FieldSpec) (acc : List (String × Val) × List (String × Val)) (k : String),
    k ∈ (l.foldl (multipartStep args) acc).1.map Prod.fst →
    k ∈ acc.1.map Prod.fst ∨ ∃ g ∈ l, k ∈ multipartFileKeys args g := by
  intro l
  induction l with
  | nil =>
    intro acc k h
    exact Or.inl h
  | cons g rest ih =>
    intro acc k h
    rw [List.foldl_cons] at h
    rcases ih _ k h with h1 | h1
    · rcases multipartStep_files_keys args acc g k h1 with h2 | h2
      · exact Or.inl h2
      · exact Or.inr ⟨g, by simp, h2⟩
    · obtain ⟨g2, hg2, hk2⟩ := h1
      exact Or.inr ⟨g2, by simp [hg2], hk2⟩

theorem multipart_foldl_form_keys (args : String → Option Val) :
    ∀ (l : List FieldSpec) (acc : List (String × Val) × List (String × Val)) (k : String),
    k ∈ (l.foldl (multipartStep args) acc).2.map Prod.fst →
    k ∈ acc.2.map Prod.fst ∨ ∃ g ∈ l, k ∈ multipartFormKeys args g := by
  intro l
  induction l with
  | nil =>
    intro acc k h
    exact Or.inl h
  | cons g rest ih =>
    intro acc k h
    rw [List.foldl_cons] at h
    rcases ih _ k h with h1 | h1
    · rcases multipartStep_form_keys args acc g k h1 with h2 | h2
      · exact Or.inl h2
      · exact Or.inr ⟨g, by simp, h2⟩
    · obtain ⟨g2, hg2, hk2⟩ := h1
      exact Or.inr ⟨g2, by simp [hg2], hk2⟩

theorem multipart_foldl_form_empty (args : String → Option Val) :
    ∀ (l : List FieldSpec), (∀ g ∈ l, g.is_file = false → args g.py_name = none) →
    ∀ (acc : List (String × Val) × List (String × Val)), acc.2 = [] →
    (l.foldl (multipartStep args) acc).2 = [] := by
  intro l
  induction l with
  | nil =>
    intro _ acc hacc
    exact hacc
  | cons g rest ih =>
    intro h acc hacc
    rw [List.foldl_cons]
    refine ih (fun r hr => h r (by simp [hr])) _ ?_
    cases hag : args g.py_name with
    | none =>
      rw [multipartStep_none args acc g hag]
      exact hacc
    | some v =>
      rw [multipartStep_some args acc g v hag]
      by_cases h1 : (g.is_file && !g.is_array_of_files) = true
      · simpa [h1] using hacc
      · by_cases h2 : (g.is_file && g.is_array_of_files) = true
        · cases v <;> simpa [h1, h2] using hacc
        · exfalso
          have hf : g.is_file = false := by
            cases hgf : g.is_file
            · rfl
            · exfalso
              cases hga : g.is_array_of_files
              · exact absurd (by simp [hgf, hga]) h1
              · exact absurd (by simp [hgf, hga]) h2
          exact (by simp [h g (by simp) hf] at hag : False)

/-- C7: for a POST/PUT/PATCH multipart operation (with all required
arguments supplied), the generated callable hands `make_request` a files
bundle and a form bundle such that: an array-of-files field supplied as a
list of `n` files is exploded into the indexed keys `name[0] ... name[n-1]`
of the files bundle; a field whose argument is absent contributes to neither
bundle; and when no scalar form field is populated the form bundle is `None`
rather than an empty mapping. -/
theorem multipart_body_assembly (method path : String) (pp qp : List ParamSpec)
    (bf : List FieldSpec) (args : String → Option Val) (e : String)
    (hm : postPutPatch method = true)
    (hq : ∀ q ∈ pp ++ qp, q.required = true → args q.py_name ≠ none)
    (hb : ∀ g ∈ bf, g.required = true → args g.py_name ≠ none)
    (he : formatFString (build_path_fstring path (pp.map fun p => (p.openapi_name, p.py_name)))
            (argEnv (declaredNames pp qp bf (some "multipart/form-data")) args) = .ok e)
    (hbf : bf ≠ []) (hnd : bf.Nodup) :
    ∃ r fl, runGeneratedCall method path pp qp bf (some "multipart/form-data") args = .ok r
      ∧ r.files = some fl
      ∧ (∀ f ∈ bf, f.is_file = true → f.is_array_of_files = true →
          ∀ vs, args f.py_name = some (.vlist vs) →
          (∀ g ∈ bf, g ≠ f → ∀ i : Nat,
            (f.openapi_name ++ "[" ++ toString i ++ "]") ∉ multipartFileKeys args g) →
          ∀ i, ∀ h : i < vs.length,
            (f.openapi_name ++ "[" ++ toString i ++ "]", vs.get ⟨i, h⟩) ∈ fl)
      ∧ (∀ g ∈ bf, args g.py_name = none →
          (∀ g2 ∈ bf, g.openapi_name ∉ multipartFileKeys args g2
            ∧ g.openapi_name ∉ multipartFormKeys args g2) →
          g.openapi_name ∉ fl.map Prod.fst
          ∧ ∀ d, r.data = some d → g.openapi_name ∉ d.map Prod.fst)
      ∧ ((∀ g ∈ bf, g.is_file = false → args g.py_name = none) → r.data = none) := by
  have hbfe : bf.isEmpty = false := by
    cases bf with
    | nil => exact absurd rfl hbf
    | cons a t => rfl
  have h3 : (postPutPatch method
      && ((some "multipart/form-data" : Option String) == some "multipart/form-data")
      && bf.isEmpty) = false := by
    simp [hbfe]
  have hrun := runGeneratedCall_ok method path pp qp bf (some "multipart/form-data") args e
    (requiredParamChecks_ok args (pp ++ qp) hq) he
    (fun _ => requiredFieldChecks_ok args bf hb) h3
  have hbody : buildBody method (some "multipart/form-data") bf args =
      ((if (bf.foldl (multipartStep args) ([], [])).2.isEmpty then none
        else some (bf.foldl (multipartStep args) ([], [])).2),
       some (bf.foldl (multipartStep args) ([], [])).1) := by
    simp [buildBody, hm, hbfe, multipartBundles]
  refine ⟨_, (bf.foldl (multipartStep args) ([], [])).1, hrun, by rw [hbody], ?_, ?_, ?_⟩
  · intro f hf hfile harr vs hvs hfresh i hilt
    obtain ⟨l1, l2, hbfdec⟩ := List.append_of_mem hf
    have hfnotl2 : f ∉ l2 := by
      rw [hbfdec] at hnd
      exact (List.nodup_cons.mp (List.nodup_append.mp hnd).2.1).1
    rw [hbfdec, List.foldl_append, List.foldl_cons]
    have hstepf : multipartStep args (l1.foldl (multipartStep args) ([], [])) f
        = (explodeFiles (l1.foldl (multipartStep args) ([], [])).1 f.openapi_name vs,
           (l1.foldl (multipartStep args) ([], [])).2) := by
      rw [multipartStep_some args _ f _ hvs]
      simp [hfile, harr]
    rw [hstepf]
    refine multipart_foldl_files_preserve args l2 _ _ _ ?_ ?_
    · have hmem := explodeFrom_mem f.openapi_name vs
        (l1.foldl (multipartStep args) ([], [])).1 0 i hilt
      simpa [explodeFiles] using hmem
    · intro g hg
      have hgne : g ≠ f := fun hh => hfnotl2 (hh ▸ hg)
      exact hfresh g (by rw [hbfdec]; exact List.mem_append.mpr (Or.inr (by simp [hg]))) hgne i
  · intro g hg hgnone hnokeys
    constructor
    · intro hmem
      rcases multipart_foldl_files_keys args bf ([], []) g.openapi_name hmem with h1 | h1
      · simp at h1
      · obtain ⟨g2, hg2, hk2⟩ := h1
        exact (hnokeys g2 hg2).1 hk2
    · intro d hd hmem
      have hdd : d = (bf.foldl (multipartStep args) ([], [])).2 := by
        simp only [hbody] at hd
        by_cases hemp : (bf.foldl (multipartStep args) ([], [])).2.isEmpty
        · rw [if_pos hemp] at hd
          cases hd
        · rw [if_neg hemp] at hd
          exact (Option.some.injEq _ _ ▸ hd).symm
      subst hdd
      rcases multipart_foldl_form_keys args bf ([], []) g.openapi_name hmem with h1 | h1
      · simp at h1
      · obtain ⟨g2, hg2, hk2⟩ := h1
        exact (hnokeys g2 hg2).2 hk2
  · intro hscal
    have hempty : (bf.foldl (multipartStep args) ([], [])).2 = [] :=
      multipart_foldl_form_empty args bf hscal ([], []) rfl
    simp [hbody, hempty]

/-- Witness for C7: the multipart scenario with scalar `title` and
array-of-files `attachments` supplied with two files — the files bundle gets
`attachments[0]` and `attachments[1]`. -/
theorem multipart_body_assembly_witness :
    ∃ r fl, runGeneratedCall "post" "/upload" [] []
        [{ py_name := "title", openapi_name := "title", is_file := false, descr := "",
           required := true, is_array_of_files := false },
         { py_name := "attachments", openapi_name := "attachments", is_file := true,
           descr := "", required := false, is_array_of_files := true }]
        (some "multipart/form-data")
        (fun n => if n == "title" then some (.vstr "hello")
         else if n == "attachments" then some (.vlist [.vfile "f0", .vfile "f1"]) else none)
      = .ok r
      ∧ r.files = some fl
      ∧ ("attachments[0]", Val.vfile "f0") ∈ fl
      ∧ ("attachments[1]", Val.vfile "f1") ∈ fl := by
  obtain ⟨r, fl, hr, hfl, h1, _h2, _h3⟩ := multipart_body_assembly "post" "/upload" [] []
    [{ py_name := "title", openapi_name := "title", is_file := false, descr := "",
       required := true, is_array_of_files := false },
     { py_name := "attachments", openapi_name := "attachments", is_file := true,
       descr := "", required := false, is_array_of_files := true }]
    (fun n => if n == "title" then some (.vstr "hello")
     else if n == "attachments" then some (.vlist [.vfile "f0", .vfile "f1"]) else none)
    "/upload" rfl
    (by intro q hq; cases hq)
    (by
      intro g hg hgr
      rcases List.mem_cons.mp hg with rfl | hg2
      · simp
      · rcases List.mem_cons.mp hg2 with rfl | hg3
        · simp at hgr
        · cases hg3)
    rfl (by simp) (by decide)
  have hfr : ∀ g ∈
      [{ py_name := "title", openapi_name := "title", is_file := false, descr := "",
         required := true, is_array_of_files := false },
       { py_name := "attachments", openapi_name := "attachments", is_file := true,
         descr := "", required := false, is_array_of_files := true }],
      g ≠ ({ py_name := "attachments", openapi_name := "attachments", is_file := true,
             descr := "", required := false, is_array_of_files := true } : FieldSpec) →
      ∀ i : Nat, ("attachments" ++ "[" ++ toString i ++ "]") ∉ multipartFileKeys
        (fun n => if n == "title" then some (.vstr "hello")
         else if n == "attachments" then some (.vlist [.vfile "f0", .vfile "f1"]) else none) g := by
    intro g hg hgne i hmem
    rcases List.mem_cons.mp hg with rfl | hg2
    · have hempty : multipartFileKeys
          (fun n => if n == "title" then some (.vstr "hello")
           else if n == "attachments" then some (.vlist [.vfile "f0", .vfile "f1"]) else none)
          { py_name := "title", openapi_name := "title", is_file := false, descr := "",
            required := true, is_array_of_files := false } = [] := rfl
      rw [hempty] at hmem
      cases hmem
    · rcases List.mem_cons.mp hg2 with rfl | hg3
      · exact hgne rfl
      · cases hg3
  have hm0 := h1
    { py_name := "attachments", openapi_name := "attachments", is_file := true,
      descr := "", required := false, is_array_of_files := true }
    (by simp) rfl rfl [Val.vfile "f0", Val.vfile "f1"] rfl hfr 0 (by simp)
  have hm1 := h1
    { py_name := "attachments", openapi_name := "attachments", is_file := true,
      descr := "", required := false, is_array_of_files := true }
    (by simp) rfl rfl [Val.vfile "f0", Val.vfile "f1"] rfl hfr 1 (by simp)
  exact ⟨r, fl, hr, hfl, hm0, hm1⟩

/-! ### C8: generation is deterministic -/

/-- C8: generation is a pure function of the parsed document — two runs on
the same (byte-identical, hence identically-parsed) input produce the same
output text.  The embedding makes this a function-equality statement: the
source has no order-nondeterminism (Python dicts iterate in insertion order,
modelled by ordered association lists) and no other source of variation. -/
theorem generation_deterministic (d1 d2 : Node) (h : d1 = d2) :
    generate_api_client_from_openapi d1 = generate_api_client_from_openapi d2 := by
  rw [h]

/-- Witness for C8: two runs on one concrete document agree. -/
theorem generation_deterministic_witness :
    generate_api_client_from_openapi (Node.map [("paths", Node.map [])])
      = generate_api_client_from_openapi (Node.map [("paths", Node.map [])]) :=
  generation_deterministic (Node.map [("paths", Node.map [])])
    (Node.map [("paths", Node.map [])]) rfl
